import Mathlib

/-!
Shallow embedding of the trajectory generation and validation engine of the
Network-Technology-Challenge project (src/S1/S1.py and
src/Validation/validate_data.py), with theorems settling the frozen claims.

Modelling conventions:
* a pandas data frame becomes a record of a column-name list plus a list of
  rows whose fields are Option valued (none models a null cell); row fields
  are meaningful for the columns listed in the frame, and frames produced by
  the pipeline list exactly the populated columns;
* Python floats become exact rationals; the external numeric routines
  (skyfield propagation, frame conversion, pymap3d.ecef2geodetic, and
  numpy.sqrt where its result is stored in the table) are opaque function
  parameters;
* a comparison of the form sqrt e < bound whose square root result is not
  stored anywhere is modelled by the equivalent e < bound ^ 2 (the square
  root is strictly monotone on nonnegative reals and e is a sum of squares);
* Python strings are Lean strings; Python string order is code point
  lexicographic order, modelled on String.data.
-/

namespace NetChal

set_option maxRecDepth 8000

/-- Python str(e)[:100], the truncation both validators apply to an exception
message before reporting ERROR. -/
def truncate100 (s : String) : String := s.take 100

/-- Python float modulo x % 360.0 on finite values: the representative of x in
the interval from 0 inclusive to 360 exclusive. -/
def pymod360 (x : ℚ) : ℚ := x - 360 * (⌊x / 360⌋ : ℚ)

/-- Python round to nearest integer, ties to even. -/
def rndHE (x : ℚ) : ℤ :=
  if x - (⌊x⌋ : ℚ) < 1 / 2 then ⌊x⌋
  else if (1 : ℚ) / 2 < x - (⌊x⌋ : ℚ) then ⌊x⌋ + 1
  else if 2 ∣ ⌊x⌋ then ⌊x⌋ else ⌊x⌋ + 1

/-- Python round(x, 2) as applied to ECEF coordinates and altitudes in
calculate_sat_trajectory. -/
def round2 (x : ℚ) : ℚ := (rndHE (x * 100) : ℚ) / 100

/-- Python zero padding of a node index, the 02d format. -/
def pad2 (n : ℕ) : String := if n < 10 then "0" ++ toString n else toString n

/-- Node identifier SAT_ followed by the two digit index, from
load_and_filter_satellites. -/
def satId (n : ℕ) : String := "SAT_" ++ pad2 n

/-- Network address: the satellite IP 10.0.3. followed by the index. -/
def satIp (n : ℕ) : String := "10.0.3." ++ toString n

/-- Python string comparison: code point lexicographic order on the character
sequences. -/
def pyStrLt (a b : String) : Prop := a.data < b.data

instance (a b : String) : Decidable (pyStrLt a b) :=
  inferInstanceAs (Decidable (a.data < b.data))

/-- Insert one element into a list sorted by key, before the first element
whose key is greater than or equal to its own; the placement a stable sort
gives to an element arriving from the left. -/
def insKey {α β : Type} [LinearOrder β] (key : α → β) (x : α) : List α → List α
  | [] => [x]
  | y :: ys => if key x ≤ key y then x :: y :: ys else y :: insKey key x ys

/-- Stable sort by a key, modelling Python sorted with a key function and
pandas sort_values on a tie-free key column. -/
def sortKey {α β : Type} [LinearOrder β] (key : α → β) : List α → List α
  | [] => []
  | x :: xs => insKey key x (sortKey key xs)

/-- Insert a value into a sorted duplicate-free list, keeping it sorted and
duplicate-free. -/
def insU {β : Type} [LinearOrder β] (x : β) : List β → List β
  | [] => [x]
  | y :: ys => if x < y then x :: y :: ys else if x = y then y :: ys else y :: insU x ys

/-- Sorted list of the distinct values of a list: models
np.sort(series.unique()) as well as the sorted group keys of df.groupby. -/
def sortedUnique {β : Type} [LinearOrder β] (l : List β) : List β := l.foldr insU []

/-- Distinct values in order of first appearance: models pandas Series.unique. -/
def uniqFirst {β : Type} [DecidableEq β] : List β → List β
  | [] => []
  | x :: xs => x :: uniqFirst (xs.filter (fun y => decide (y ≠ x)))
termination_by l => l.length
decreasing_by
  simp only [List.length_cons]
  exact Nat.lt_succ_of_le (List.length_filter_le _ _)

/-- Worker for dups, carrying the set of values seen so far. -/
def dupsAux {β : Type} [DecidableEq β] : List β → List β → List β
  | _, [] => []
  | seen, x :: xs => if x ∈ seen then x :: dupsAux seen xs else dupsAux (x :: seen) xs

/-- Values equal to an earlier value of the list: models df.duplicated(subset),
which marks the later occurrences. -/
def dups {β : Type} [DecidableEq β] (l : List β) : List β := dupsAux [] l

/-- Consecutive differences of a list, models np.diff. -/
def diffs : List ℤ → List ℤ
  | [] => []
  | [_] => []
  | x :: y :: ys => (y - x) :: diffs (y :: ys)

/-- Consecutive pairs of a list, the earlier element first. -/
def consPairs {α : Type} (l : List α) : List (α × α) := l.zip l.tail

/-- Longest leading run of ASCII digits of a character list, with the rest. -/
def spanDigits : List Char → List Char × List Char
  | [] => ([], [])
  | c :: cs =>
    if c.isDigit then (c :: (spanDigits cs).1, (spanDigits cs).2)
    else ([], c :: cs)

/-- Matcher for the anchored tail pattern of the trace filenames: one or more
digits, an underscore, one or more digits, then the literal suffix .csv and
the end of the string. -/
def digitsUscoreDigitsCsv (cs : List Char) : Bool :=
  match (spanDigits cs).2 with
  | [] => false
  | c :: r2 =>
    decide (c = '_') && decide ((spanDigits cs).1 ≠ []) && decide ((spanDigits r2).1 ≠ [])
      && decide ((spanDigits r2).2 = [ '.', 'c', 's', 'v' ])

/-- Regex check for a trace filename: the literal head (sat_trace_ or
uav_trace_), digits, an underscore, digits, .csv, anchored at both ends. -/
def isTraceName (head : String) (s : String) : Bool :=
  decide (s.data.take head.data.length = head.data)
    && digitsUscoreDigitsCsv (s.data.drop head.data.length)

/-- Regex check for an IP of the form head followed by one to three digits,
anchored at both ends. -/
def isIpWith (head : String) (s : String) : Bool :=
  decide (s.data.take head.data.length = head.data)
    && (s.data.drop head.data.length).all Char.isDigit
    && decide (1 ≤ (s.data.drop head.data.length).length)
    && decide ((s.data.drop head.data.length).length ≤ 3)

/-- Global configuration constants of S1.py. -/
def SIM_DURATION_SEC : ℕ := 600

def TIME_STEP_SEC : ℕ := 1

def MS_PER_SEC : ℕ := 1000

def MIN_ALT_DEG : ℚ := 0

def MAX_DIST_KM : ℚ := 2000

def MAX_SAT_COUNT : ℕ := 50

def CHUNK_DURATION_SEC : ℕ := 60

def SCENARIO_NAME : String := "rescue_mission_2026_v1"

def T0_UTC_STR : String := "2026-01-27 12:00:00"

/-- One catalog entry. The opaque skyfield satellite object is modelled by the
values the external propagator and frame converters return for it: elevation
angle (degrees) and slant range (km) at the reference epoch, and per step ECEF
coordinates (metres) and geodetic altitude (km). -/
structure Candidate where
  sname : String
  alt0 : ℚ
  dist0 : ℚ
  posX : ℕ → ℚ
  posY : ℕ → ℚ
  posZ : ℕ → ℚ
  altKm : ℕ → ℚ

/-- Filter condition of load_and_filter_satellites: elevation above the
minimum threshold or slant range below the maximum threshold (inclusive or),
both strict comparisons as in the source. -/
def qualB (c : Candidate) : Bool :=
  decide (MIN_ALT_DEG < c.alt0) || decide (c.dist0 < MAX_DIST_KM)

/-- The retained candidates, visible_sats in the source. -/
def visibleSats (catalog : List Candidate) : List Candidate := catalog.filter qualB

/-- Retained candidates sorted by ascending slant range (Python sorted is
stable). -/
def sortedSats (catalog : List Candidate) : List Candidate :=
  sortKey (fun c => c.dist0) (visibleSats catalog)

/-- The selected satellites: the first MAX_SAT_COUNT after sorting. -/
def selectedSats (catalog : List Candidate) : List Candidate :=
  (sortedSats catalog).take MAX_SAT_COUNT

/-- Per satellite metadata assembled by load_and_filter_satellites. -/
structure SatMeta where
  node_id : String
  sname : String
  ip : String
  orbit_id : ℤ
  sat : Candidate

/-- The metadata list: enumerate the selected satellites from 1. The
whitespace strip applied to the external satellite name is elided, names being
opaque here. -/
def satMetadata (catalog : List Candidate) : List SatMeta :=
  (List.enumFrom 1 (selectedSats catalog)).map
    (fun p => { node_id := satId p.1, sname := p.2.sname, ip := satIp p.1,
                orbit_id := -1, sat := p.2 })

/-- One row of the S1 trace table. Each field is Option valued, none modelling
a null cell. The radius_km field is none until validate_trajectory_data stores
the derived column. The column named type is the field typ. -/
structure S1Row where
  time_ms : Option ℤ
  node_id : Option String
  sname : Option String
  typ : Option String
  ecef_x : Option ℚ
  ecef_y : Option ℚ
  ecef_z : Option ℚ
  altitude_km : Option ℚ
  orbit_id : Option ℤ
  ip : Option String
  radius_km : Option ℚ
deriving DecidableEq

/-- A data frame of S1 rows: column names plus rows. -/
structure S1Frame where
  cols : List String
  rows : List S1Row
deriving DecidableEq

/-- Columns of the generated trajectory table, before the radius column is
added. -/
def S1_GEN_COLS : List String :=
  ["time_ms", "node_id", "name", "type", "ecef_x", "ecef_y", "ecef_z",
   "altitude_km", "orbit_id", "ip"]

/-- The timestamp of step k in ms: step index times step seconds times 1000. -/
def stepMs (k : ℕ) : ℤ := ((k * TIME_STEP_SEC * MS_PER_SEC : ℕ) : ℤ)

/-- One trace record assembled by calculate_sat_trajectory at step k:
time in ms, identity fields from the metadata, coordinates and altitude
rounded to two decimals. -/
def mkTraceRow (k : ℕ) (s : SatMeta) : S1Row where
  time_ms := some (stepMs k)
  node_id := some s.node_id
  sname := some s.sname
  typ := some "SAT"
  ecef_x := some (round2 (s.sat.posX k))
  ecef_y := some (round2 (s.sat.posY k))
  ecef_z := some (round2 (s.sat.posZ k))
  altitude_km := some (round2 (s.sat.altKm k))
  orbit_id := some s.orbit_id
  ip := some s.ip
  radius_km := none

/-- Number of simulation steps, total_steps in the source. -/
def TOTAL_STEPS : ℕ := SIM_DURATION_SEC / TIME_STEP_SEC

/-- All trajectory rows: outer loop over time steps, inner loop over the
selected satellites, exactly the loop nesting of calculate_sat_trajectory. -/
def trajRows (m : List SatMeta) : List S1Row :=
  (List.range TOTAL_STEPS).flatMap (fun k => m.map (mkTraceRow k))

/-- The generated trajectory data frame. -/
def trajFrame (m : List SatMeta) : S1Frame := ⟨S1_GEN_COLS, trajRows m⟩

/-- Cell of the time column; meaningful once the null check has passed. -/
def timeOf (r : S1Row) : ℤ := r.time_ms.getD 0

/-- Cell of the node_id column; meaningful once the null check has passed. -/
def nodeOf (r : S1Row) : String := r.node_id.getD ""

/-- Argument of the square root in the radius computation of
validate_trajectory_data: the squares of the coordinates scaled to km. -/
def rowRadSq (r : S1Row) : ℚ :=
  (r.ecef_x.getD 0 / 1000) ^ 2 + (r.ecef_y.getD 0 / 1000) ^ 2
    + (r.ecef_z.getD 0 / 1000) ^ 2

/-- validate_trajectory_data stores df radius_km as the float square root of
rowRadSq; the float square root is the opaque parameter sqrtFn. The column
list gains radius_km when absent (pandas column assignment mutates in place
and never duplicates a column). -/
def addRadius (sqrtFn : ℚ → ℚ) (f : S1Frame) : S1Frame :=
  ⟨if "radius_km" ∈ f.cols then f.cols else f.cols ++ ["radius_km"],
   f.rows.map (fun r => { r with radius_km := some (sqrtFn (rowRadSq r)) })⟩

/-- Required columns checked by validate_trajectory_data. -/
def GEN_REQUIRED_COLS : List String := S1_GEN_COLS

/-- Missing required columns, check 1 of validate_trajectory_data. -/
def genMissingCols (f : S1Frame) : List String :=
  GEN_REQUIRED_COLS.filter (fun c => decide (c ∉ f.cols))

/-- The time column of a frame. -/
def frameTimes (f : S1Frame) : List ℤ := f.rows.map timeOf

/-- Python range over the expected timestamps: 0 to the total duration in ms,
stepping by the step size in ms (the step divides the duration exactly). -/
def expectedSteps : List ℤ :=
  (List.range (SIM_DURATION_SEC * MS_PER_SEC / (TIME_STEP_SEC * MS_PER_SEC))).map
    (fun k => ((k * (TIME_STEP_SEC * MS_PER_SEC) : ℕ) : ℤ))

/-- Names of the null columns of one row, over the eleven modelled columns. -/
def rowNullCols (r : S1Row) : List String :=
  (if r.time_ms.isNone then ["time_ms"] else []) ++
  (if r.node_id.isNone then ["node_id"] else []) ++
  (if r.sname.isNone then ["name"] else []) ++
  (if r.typ.isNone then ["type"] else []) ++
  (if r.ecef_x.isNone then ["ecef_x"] else []) ++
  (if r.ecef_y.isNone then ["ecef_y"] else []) ++
  (if r.ecef_z.isNone then ["ecef_z"] else []) ++
  (if r.altitude_km.isNone then ["altitude_km"] else []) ++
  (if r.orbit_id.isNone then ["orbit_id"] else []) ++
  (if r.ip.isNone then ["ip"] else []) ++
  (if r.radius_km.isNone then ["radius_km"] else [])

/-- True when some cell of the frame is null, df.isnull().any().any(). -/
def hasNulls (f : S1Frame) : Bool := f.rows.any (fun r => decide (rowNullCols r ≠ []))

/-- Rows whose stored radius exceeds the 7000 km bound; check 3 of
validate_trajectory_data checks only this upper bound. -/
def genBadRadius (f : S1Frame) : List S1Row :=
  f.rows.filter (fun r => decide ((7000 : ℚ) < r.radius_km.getD 0))

/-- validate_trajectory_data as a predicate: true means no ValueError is
raised. The source first stores the radius column in place, computes the four
checks without short-circuiting, and raises once at the end when any failed. -/
def genChecksPass (sqrtFn : ℚ → ℚ) (f : S1Frame) : Bool :=
  decide (genMissingCols (addRadius sqrtFn f) = [])
    && decide (sortedUnique (frameTimes (addRadius sqrtFn f)) = expectedSteps)
    && decide (genBadRadius (addRadius sqrtFn f) = [])
    && !hasNulls (addRadius sqrtFn f)

/-- Number of chunk files, total_chunks in split_and_save_csv. -/
def TOTAL_CHUNKS : ℕ := SIM_DURATION_SEC / CHUNK_DURATION_SEC

/-- Chunk window start in ms: chunk index times the chunk duration in ms. -/
def chunkStartMs (c : ℕ) : ℤ := ((c * CHUNK_DURATION_SEC * MS_PER_SEC : ℕ) : ℤ)

/-- Chunk window end in ms: end_sec times MS_PER_SEC minus 1, the closed upper
endpoint the source names end_ms. -/
def chunkEndMs (c : ℕ) : ℤ :=
  (((c * CHUNK_DURATION_SEC + CHUNK_DURATION_SEC) * MS_PER_SEC : ℕ) : ℤ) - 1

/-- Membership test the writer applies to each row: time_ms at least start_ms
and time_ms strictly below end_ms + 1, exactly the filter of
split_and_save_csv. -/
def writerMem (c : ℕ) (t : ℤ) : Bool :=
  decide (chunkStartMs c ≤ t) && decide (t < chunkEndMs c + 1)

/-- Rows of chunk c. -/
def chunkRows (c : ℕ) (f : S1Frame) : List S1Row :=
  f.rows.filter (fun r => writerMem c (timeOf r))

/-- The data frame written to the chunk file with index c. -/
def chunkFrame (c : ℕ) (f : S1Frame) : S1Frame := ⟨f.cols, chunkRows c f⟩

/-- Filename written by split_and_save_csv for chunk c, computed from
start_sec = c times CHUNK_DURATION_SEC and end_sec = start_sec plus
CHUNK_DURATION_SEC. -/
def writerFileName (c : ℕ) : String :=
  "sat_trace_" ++ toString (c * CHUNK_DURATION_SEC * MS_PER_SEC) ++ "_"
    ++ toString ((c * CHUNK_DURATION_SEC + CHUNK_DURATION_SEC) * MS_PER_SEC - 1) ++ ".csv"

/-- Filename listed in the manifest for chunk c; the manifest comprehension
repeats the index arithmetic instead of reusing the writer value. -/
def manifestFileName (c : ℕ) : String :=
  "sat_trace_" ++ toString (c * CHUNK_DURATION_SEC * MS_PER_SEC) ++ "_"
    ++ toString ((c + 1) * CHUNK_DURATION_SEC * MS_PER_SEC - 1) ++ ".csv"

/-- The written chunk files in order: filename and contents. -/
def splitChunks (f : S1Frame) : List (String × S1Frame) :=
  (List.range TOTAL_CHUNKS).map (fun c => (writerFileName c, chunkFrame c f))

/-- The manifest record of split_and_save_csv. -/
structure Manifest where
  scenario_name : String
  t0_utc : String
  sim_duration_sec : ℕ
  sat_count : ℕ
  trace_files : List String
deriving DecidableEq

/-- manifest.json as assembled by split_and_save_csv. The sat_count field is
the constant MAX_SAT_COUNT and is not derived from the data frame. -/
def buildManifest : Manifest :=
  ⟨SCENARIO_NAME, T0_UTC_STR, SIM_DURATION_SEC, MAX_SAT_COUNT,
   (List.range TOTAL_CHUNKS).map manifestFileName⟩

/-- Steps 4 and 5 of the main flow: validate, then write the chunks and the
manifest. A validation failure raises ValueError, so nothing is written. -/
def runPipelineFrom (sqrtFn : ℚ → ℚ) (f : S1Frame) :
    Option (List (String × S1Frame) × Manifest) :=
  if genChecksPass sqrtFn f then some (splitChunks (addRadius sqrtFn f), buildManifest)
  else none

/-- The generation pipeline from a catalog: selection, sampling, validation,
chunk writing. -/
def runPipeline (sqrtFn : ℚ → ℚ) (catalog : List Candidate) :
    Option (List (String × S1Frame) × Manifest) :=
  runPipelineFrom sqrtFn (trajFrame (satMetadata catalog))

/-- The stored radius value for the sample of candidate c at step k, as
validate_trajectory_data computes it from the rounded coordinates. -/
def sampleRadius (sqrtFn : ℚ → ℚ) (c : Candidate) (k : ℕ) : ℚ :=
  sqrtFn ((round2 (c.posX k) / 1000) ^ 2 + (round2 (c.posY k) / 1000) ^ 2
    + (round2 (c.posZ k) / 1000) ^ 2)

/-- The trajectory row of step k once validate_trajectory_data stored the
radius column. -/
def radRow (sqrtFn : ℚ → ℚ) (k : ℕ) (s : SatMeta) : S1Row :=
  { mkTraceRow k s with radius_km := some (sampleRadius sqrtFn s.sat k) }

/-- The validated frame split_and_save_csv slices: the generated frame with
the radius column stored. -/
def genFrame (sqrtFn : ℚ → ℚ) (m : List SatMeta) : S1Frame :=
  addRadius sqrtFn (trajFrame m)

/-- Reasons validate_s1_csv reports with a FAIL verdict, one constructor per
rule, carrying the sample payload the message interpolates. -/
inductive S1Reason
  | badName
  | missingCols (cols : List String)
  | nullCols (cols : List String)
  | groupSize (times : List ℤ)
  | dupNode (pairs : List (ℤ × String))
  | noTime
  | badStep (steps : List ℤ)
  | badCount (n : ℕ)
  | badType (types : List String)
  | altitude (rows : List (String × ℤ × ℚ))
  | radius (rows : List (String × ℤ × ℚ))
  | badIp (ips : List String)
deriving DecidableEq

/-- The tri-state verdict of validate_s1_csv. -/
inductive S1Verdict
  | pass
  | fail (r : S1Reason)
  | error (msg : String)
deriving DecidableEq

/-- Required columns of validate_s1_csv: the generated ten plus radius_km. -/
def S1_REQUIRED_COLS : List String := S1_GEN_COLS ++ ["radius_km"]

/-- Missing required columns of a parsed S1 file. -/
def s1MissingCols (f : S1Frame) : List String :=
  S1_REQUIRED_COLS.filter (fun c => decide (c ∉ f.cols))

/-- Frame columns containing a null, the payload of the null FAIL. -/
def frameNullCols (f : S1Frame) : List String :=
  f.cols.filter (fun c => f.rows.any (fun r => (rowNullCols r).contains c))

/-- Group sizes of df.groupby on time_ms: keys in ascending order, each with
its row count. -/
def groupSizes (f : S1Frame) : List (ℤ × ℕ) :=
  (sortedUnique (frameTimes f)).map
    (fun t => (t, f.rows.countP (fun r => decide (timeOf r = t))))

/-- Timestamps whose group size differs from the fixed 50. -/
def s1AbnormalGroups (f : S1Frame) : List (ℤ × ℕ) :=
  (groupSizes f).filter (fun p => decide (p.2 ≠ 50))

/-- Later rows repeating an earlier pair of time_ms and node_id. -/
def s1DupPairs (f : S1Frame) : List (ℤ × String) :=
  dups (f.rows.map (fun r => (timeOf r, nodeOf r)))

/-- Distinct abnormal consecutive steps of the sorted unique timestamps
(np.unique sorts its result). -/
def s1BadSteps (f : S1Frame) : List ℤ :=
  sortedUnique ((diffs (sortedUnique (frameTimes f))).filter (fun d => decide (d ≠ 1000)))

/-- Rows violating the altitude band from 200 to 1200 km, with the sample
fields of the message. -/
def s1BadAlt (f : S1Frame) : List (String × ℤ × ℚ) :=
  (f.rows.filter (fun r =>
    decide (r.altitude_km.getD 0 < 200) || decide ((1200 : ℚ) < r.altitude_km.getD 0))).map
    (fun r => (nodeOf r, timeOf r, r.altitude_km.getD 0))

/-- Rows violating the radius band from 6371 to 7000 km. -/
def s1BadRad (f : S1Frame) : List (String × ℤ × ℚ) :=
  (f.rows.filter (fun r =>
    decide (r.radius_km.getD 0 < 6371) || decide ((7000 : ℚ) < r.radius_km.getD 0))).map
    (fun r => (nodeOf r, timeOf r, r.radius_km.getD 0))

/-- IP values failing the satellite address pattern. -/
def s1BadIps (f : S1Frame) : List String :=
  (f.rows.filter (fun r => !isIpWith "10.0.3." (r.ip.getD ""))).map (fun r => r.ip.getD "")

/-- True when every row carries the type tag SAT. -/
def s1AllSat (f : S1Frame) : Bool := f.rows.all (fun r => decide (r.typ.getD "" = "SAT"))

/-- validate_s1_csv. The input is the outcome of reading and parsing the file;
an error models an exception caught by the top level handler. -/
def validateS1 (fileName : String) (input : Except String S1Frame) : S1Verdict :=
  match input with
  | .error e => .error (truncate100 e)
  | .ok df =>
    if !isTraceName "sat_trace_" fileName then .fail .badName
    else if s1MissingCols df ≠ [] then .fail (.missingCols (s1MissingCols df))
    else if hasNulls df then .fail (.nullCols (frameNullCols df))
    else if s1AbnormalGroups df ≠ [] then .fail (.groupSize ((s1AbnormalGroups df).map Prod.fst))
    else if s1DupPairs df ≠ [] then .fail (.dupNode ((s1DupPairs df).take 3))
    else if sortedUnique (frameTimes df) = [] then .fail .noTime
    else if s1BadSteps df ≠ [] then .fail (.badStep (s1BadSteps df))
    else if (sortedUnique (frameTimes df)).length ≠ 60 then
      .fail (.badCount (sortedUnique (frameTimes df)).length)
    else if !s1AllSat df then .fail (.badType (uniqFirst (df.rows.map (fun r => r.typ.getD ""))))
    else if s1BadAlt df ≠ [] then .fail (.altitude ((s1BadAlt df).take 3))
    else if s1BadRad df ≠ [] then .fail (.radius ((s1BadRad df).take 3))
    else if s1BadIps df ≠ [] then .fail (.badIp ((uniqFirst (s1BadIps df)).take 3))
    else .pass

/-- Recogniser of the row-count-per-timestamp FAIL of validate_s1_csv. -/
def isGroupFailS1 : S1Verdict → Bool
  | .fail (.groupSize _) => true
  | _ => false

/-- One row of the S2 trace table, the ground plus aerial profile. -/
structure S2Row where
  time_ms : Option ℤ
  node_id : Option String
  role : Option String
  typ : Option String
  ecef_x : Option ℚ
  ecef_y : Option ℚ
  ecef_z : Option ℚ
  ip : Option String
  heading_deg : Option ℚ
  battery_pct : Option ℚ
deriving DecidableEq

/-- A data frame of S2 rows. -/
structure S2Frame where
  cols : List String
  rows : List S2Row
deriving DecidableEq

/-- Required columns of validate_s2_csv. -/
def S2_REQUIRED_COLS : List String :=
  ["time_ms", "node_id", "role", "type", "ecef_x", "ecef_y", "ecef_z", "ip",
   "heading_deg", "battery_pct"]

/-- Cell of the time column of an S2 row. -/
def timeOf2 (r : S2Row) : ℤ := r.time_ms.getD 0

/-- Cell of the node_id column of an S2 row. -/
def nodeOf2 (r : S2Row) : String := r.node_id.getD ""

/-- Names of the null columns of one S2 row. -/
def row2NullCols (r : S2Row) : List String :=
  (if r.time_ms.isNone then ["time_ms"] else []) ++
  (if r.node_id.isNone then ["node_id"] else []) ++
  (if r.role.isNone then ["role"] else []) ++
  (if r.typ.isNone then ["type"] else []) ++
  (if r.ecef_x.isNone then ["ecef_x"] else []) ++
  (if r.ecef_y.isNone then ["ecef_y"] else []) ++
  (if r.ecef_z.isNone then ["ecef_z"] else []) ++
  (if r.ip.isNone then ["ip"] else []) ++
  (if r.heading_deg.isNone then ["heading_deg"] else []) ++
  (if r.battery_pct.isNone then ["battery_pct"] else [])

/-- True when some cell of the S2 frame is null. -/
def hasNulls2 (f : S2Frame) : Bool := f.rows.any (fun r => decide (row2NullCols r ≠ []))

/-- S2 frame columns containing a null. -/
def frameNullCols2 (f : S2Frame) : List String :=
  f.cols.filter (fun c => f.rows.any (fun r => (row2NullCols r).contains c))

/-- The time column of an S2 frame. -/
def frameTimes2 (f : S2Frame) : List ℤ := f.rows.map timeOf2

/-- Missing required columns of a parsed S2 file. -/
def s2MissingCols (f : S2Frame) : List String :=
  S2_REQUIRED_COLS.filter (fun c => decide (c ∉ f.cols))

/-- Group sizes of the S2 frame by time_ms. -/
def groupSizes2 (f : S2Frame) : List (ℤ × ℕ) :=
  (sortedUnique (frameTimes2 f)).map
    (fun t => (t, f.rows.countP (fun r => decide (timeOf2 r = t))))

/-- Timestamps whose group size differs from the fixed 4. -/
def s2AbnormalGroups (f : S2Frame) : List (ℤ × ℕ) :=
  (groupSizes2 f).filter (fun p => decide (p.2 ≠ 4))

/-- Later S2 rows repeating an earlier pair of time_ms and node_id. -/
def s2DupPairs (f : S2Frame) : List (ℤ × String) :=
  dups (f.rows.map (fun r => (timeOf2 r, nodeOf2 r)))

/-- Distinct abnormal consecutive steps of the sorted unique S2 timestamps. -/
def s2BadSteps (f : S2Frame) : List ℤ :=
  sortedUnique ((diffs (sortedUnique (frameTimes2 f))).filter (fun d => decide (d ≠ 100)))

/-- The external geodetic converter pymap3d.ecef2geodetic: latitude, longitude
and altitude in metres from ECEF coordinates. -/
def Geo : Type := ℚ → ℚ → ℚ → ℚ × ℚ × ℚ

/-- Latitude of a row under the geodetic converter. -/
def latOf (geo : Geo) (r : S2Row) : ℚ :=
  (geo (r.ecef_x.getD 0) (r.ecef_y.getD 0) (r.ecef_z.getD 0)).1

/-- Longitude of a row under the geodetic converter. -/
def lonOf (geo : Geo) (r : S2Row) : ℚ :=
  (geo (r.ecef_x.getD 0) (r.ecef_y.getD 0) (r.ecef_z.getD 0)).2.1

/-- Altitude in metres of a row under the geodetic converter. -/
def altOf (geo : Geo) (r : S2Row) : ℚ :=
  (geo (r.ecef_x.getD 0) (r.ecef_y.getD 0) (r.ecef_z.getD 0)).2.2

/-- Square of the ECEF vector length in metres; the source compares its float
square root scaled to km against 6371 and 7000, modelled on the squares. -/
def magSq (r : S2Row) : ℚ :=
  (r.ecef_x.getD 0) ^ 2 + (r.ecef_y.getD 0) ^ 2 + (r.ecef_z.getD 0) ^ 2

/-- Type tag test for aerial rows. -/
def isUav (r : S2Row) : Bool := decide (r.typ.getD "" = "UAV")

/-- Type tag test for ground rows. -/
def isGs (r : S2Row) : Bool := decide (r.typ.getD "" = "GS")

/-- Rows whose ECEF length in km leaves the band from 6371 to 7000. -/
def s2BadMag (f : S2Frame) : List S2Row :=
  f.rows.filter (fun r =>
    decide (magSq r < (6371000 : ℚ) ^ 2) || decide ((7000000 : ℚ) ^ 2 < magSq r))

/-- Rows whose latitude or longitude leaves the scenario bounding box. -/
def s2BadPos (geo : Geo) (f : S2Frame) : List S2Row :=
  f.rows.filter (fun r =>
    decide (latOf geo r < 29) || decide ((31 : ℚ) < latOf geo r)
      || decide (lonOf geo r < 103) || decide ((105 : ℚ) < lonOf geo r))

/-- Aerial rows whose altitude leaves the band from 500 to 5000 metres. -/
def s2BadUavAlt (geo : Geo) (f : S2Frame) : List S2Row :=
  f.rows.filter (fun r =>
    isUav r && (decide (altOf geo r < 500) || decide ((5000 : ℚ) < altOf geo r)))

/-- The ground rows of the frame. -/
def gsRows (f : S2Frame) : List S2Row := f.rows.filter isGs

/-- Ground rows above the 1000 metre ceiling. -/
def s2BadGsAlt (geo : Geo) (f : S2Frame) : List S2Row :=
  (gsRows f).filter (fun r => decide ((1000 : ℚ) < altOf geo r))

/-- Distinct ground altitudes, first appearance order, for the drift check. -/
def gsAlts (geo : Geo) (f : S2Frame) : List ℚ := uniqFirst ((gsRows f).map (altOf geo))

/-- True when every ground row carries heading -1. -/
def s2GsHeadOk (f : S2Frame) : Bool :=
  (gsRows f).all (fun r => decide (r.heading_deg.getD 0 = -1))

/-- True when the frame has at least one aerial row, the uav_mask.any() guard. -/
def uavAny (f : S2Frame) : Bool := f.rows.any isUav

/-- In place normalization of the heading of one row: aerial headings are
reduced modulo 360, other rows are untouched. -/
def normRow (r : S2Row) : S2Row :=
  if isUav r then { r with heading_deg := some (pymod360 (r.heading_deg.getD 0)) } else r

/-- The frame after the heading normalization block, which runs only when some
aerial row exists. -/
def s2Norm (f : S2Frame) : S2Frame :=
  if uavAny f then ⟨f.cols, f.rows.map normRow⟩ else f

/-- Aerial rows whose heading leaves the closed interval from 0 to 360;
evaluated on the normalized frame in the source. -/
def s2BadUavHead (f : S2Frame) : List S2Row :=
  f.rows.filter (fun r =>
    isUav r && (decide (r.heading_deg.getD 0 < 0) || decide ((360 : ℚ) < r.heading_deg.getD 0)))

/-- True when every ground row carries battery -1. -/
def s2GsBattOk (f : S2Frame) : Bool :=
  (gsRows f).all (fun r => decide (r.battery_pct.getD 0 = -1))

/-- The aerial rows of the frame, uav_df in the source. -/
def uavRowsOf (f : S2Frame) : List S2Row := f.rows.filter isUav

/-- Distinct aerial node identifiers in first appearance order. -/
def uavIds (f : S2Frame) : List String := uniqFirst ((uavRowsOf f).map nodeOf2)

/-- All rows of one node identifier sorted by time; the role loop of the
source takes them from the full frame. -/
def nodeTrack (f : S2Frame) (uid : String) : List S2Row :=
  sortKey timeOf2 (f.rows.filter (fun r => decide (nodeOf2 r = uid)))

/-- The aerial rows of one node identifier sorted by time; the battery loop
takes them from uav_df only. -/
def uavTrack (f : S2Frame) (uid : String) : List S2Row :=
  sortKey timeOf2 ((uavRowsOf f).filter (fun r => decide (nodeOf2 r = uid)))

/-- Battery check for one aerial node: some consecutive pair with nonzero
elapsed time has a change rate above 10 percent per second in magnitude. -/
def badBattery (f : S2Frame) (uid : String) : Bool :=
  (consPairs (uavTrack f uid)).any (fun p =>
    decide (timeOf2 p.2 - timeOf2 p.1 ≠ 0)
      && decide ((10 : ℚ) <
        |(p.2.battery_pct.getD 0 - p.1.battery_pct.getD 0)
          / (((timeOf2 p.2 - timeOf2 p.1 : ℤ) : ℚ) / 1000)|))

/-- Square of the displacement between two samples; the source compares its
float square root against the 5 metre threshold, modelled on the squares. -/
def sqStep (a b : S2Row) : ℚ :=
  (b.ecef_x.getD 0 - a.ecef_x.getD 0) ^ 2 + (b.ecef_y.getD 0 - a.ecef_y.getD 0) ^ 2
    + (b.ecef_z.getD 0 - a.ecef_z.getD 0) ^ 2

/-- The movement threshold in metres of the role check. -/
def MOVE_THRESHOLD : ℚ := 5

/-- Role check for one node: some consecutive pair moves farther than the
threshold while the later sample does not carry the RELAY role. -/
def badMove (f : S2Frame) (uid : String) : Bool :=
  (consPairs (nodeTrack f uid)).any (fun p =>
    decide (MOVE_THRESHOLD ^ 2 < sqStep p.1 p.2) && decide (p.2.role.getD "" ≠ "RELAY"))

/-- IP values failing the ground and aerial address pattern. -/
def s2BadIps (f : S2Frame) : List String :=
  (f.rows.filter (fun r => !isIpWith "10.0.0." (r.ip.getD ""))).map (fun r => r.ip.getD "")

/-- Reasons validate_s2_csv reports with a FAIL verdict. The invalidCoord
constructor documents the infinity and NaN guard of the source, which is
vacuous over exact rationals and therefore never produced by this model. -/
inductive S2Reason
  | badName
  | missingCols (cols : List String)
  | nullCols (cols : List String)
  | groupSize (times : List ℤ)
  | dupNode (pairs : List (ℤ × String))
  | badCount (n : ℕ)
  | badStep (steps : List ℤ)
  | badRowCount (n : ℕ)
  | ecefMag (rows : List (String × ℤ × ℚ))
  | latLon (rows : List (String × ℤ × ℚ × ℚ))
  | uavAlt (rows : List (String × ℤ × ℚ))
  | gsAlt (rows : List (String × ℤ × ℚ))
  | gsDrift (alts : List ℚ)
  | invalidCoord (rows : List (String × ℤ))
  | gsHeading
  | uavHeading (rows : List (String × ℚ))
  | gsBattery
  | uavBattery (uid : String)
  | roleNotRelay (uid : String)
  | badIp (ips : List String)
deriving DecidableEq

/-- The tri-state verdict of validate_s2_csv. -/
inductive S2Verdict
  | pass
  | fail (r : S2Reason)
  | error (msg : String)
deriving DecidableEq

/-- validate_s2_csv. The geodetic converter is the opaque parameter geo; the
inner exception handler around the coordinate block cannot fire over total
functions and exact rationals, so it has no branch here. -/
def validateS2 (geo : Geo) (fileName : String) (input : Except String S2Frame) : S2Verdict :=
  match input with
  | .error e => .error (truncate100 e)
  | .ok df =>
    if !isTraceName "uav_trace_" fileName then .fail .badName
    else if s2MissingCols df ≠ [] then .fail (.missingCols (s2MissingCols df))
    else if hasNulls2 df then .fail (.nullCols (frameNullCols2 df))
    else if s2AbnormalGroups df ≠ [] then .fail (.groupSize ((s2AbnormalGroups df).map Prod.fst))
    else if s2DupPairs df ≠ [] then .fail (.dupNode ((s2DupPairs df).take 3))
    else if (sortedUnique (frameTimes2 df)).length ≠ 600 then
      .fail (.badCount (sortedUnique (frameTimes2 df)).length)
    else if s2BadSteps df ≠ [] then .fail (.badStep (s2BadSteps df))
    else if df.rows.length ≠ 2400 then .fail (.badRowCount df.rows.length)
    else if s2BadMag df ≠ [] then
      .fail (.ecefMag (((s2BadMag df).map (fun r => (nodeOf2 r, timeOf2 r, magSq r))).take 3))
    else if s2BadPos geo df ≠ [] then
      .fail (.latLon (((s2BadPos geo df).map
        (fun r => (nodeOf2 r, timeOf2 r, latOf geo r, lonOf geo r))).take 3))
    else if s2BadUavAlt geo df ≠ [] then
      .fail (.uavAlt (((s2BadUavAlt geo df).map
        (fun r => (nodeOf2 r, timeOf2 r, altOf geo r))).take 3))
    else if s2BadGsAlt geo df ≠ [] then
      .fail (.gsAlt (((s2BadGsAlt geo df).map
        (fun r => (nodeOf2 r, timeOf2 r, altOf geo r))).take 3))
    else if 1 < (gsAlts geo df).length then .fail (.gsDrift (gsAlts geo df))
    else if !s2GsHeadOk df then .fail .gsHeading
    else if s2BadUavHead (s2Norm df) ≠ [] then
      .fail (.uavHeading (((s2BadUavHead (s2Norm df)).map
        (fun r => (nodeOf2 r, r.heading_deg.getD 0))).take 3))
    else if !s2GsBattOk (s2Norm df) then .fail .gsBattery
    else
      match (uavIds (s2Norm df)).find? (fun uid => badBattery (s2Norm df) uid) with
      | some uid => .fail (.uavBattery uid)
      | none =>
        match (uavIds (s2Norm df)).find? (fun uid => badMove (s2Norm df) uid) with
        | some uid => .fail (.roleNotRelay uid)
        | none =>
          if s2BadIps (s2Norm df) ≠ [] then
            .fail (.badIp ((uniqFirst (s2BadIps (s2Norm df))).take 3))
          else .pass

/-- Number of offending row samples embedded in an S2 FAIL reason. -/
def s2RowSampleLen : S2Reason → ℕ
  | .dupNode l => l.length
  | .ecefMag l => l.length
  | .latLon l => l.length
  | .uavAlt l => l.length
  | .gsAlt l => l.length
  | .invalidCoord l => l.length
  | .uavHeading l => l.length
  | .badIp l => l.length
  | _ => 0

/-- Recogniser of the role FAIL of validate_s2_csv. -/
def isRoleFailS2 : S2Verdict → Bool
  | .fail (.roleNotRelay _) => true
  | _ => false

/-- Recogniser of the aerial heading FAIL of validate_s2_csv. -/
def isUavHeadingFailS2 : S2Verdict → Bool
  | .fail (.uavHeading _) => true
  | _ => false

/-- Conjunction of every check validate_s2_csv performs strictly before the
role loop; true exactly when an input file reaches the role check. -/
def s2Prior (geo : Geo) (fileName : String) (df : S2Frame) : Bool :=
  isTraceName "uav_trace_" fileName && decide (s2MissingCols df = []) && !hasNulls2 df
    && decide (s2AbnormalGroups df = []) && decide (s2DupPairs df = [])
    && decide ((sortedUnique (frameTimes2 df)).length = 600)
    && decide (s2BadSteps df = []) && decide (df.rows.length = 2400)
    && decide (s2BadMag df = []) && decide (s2BadPos geo df = [])
    && decide (s2BadUavAlt geo df = []) && decide (s2BadGsAlt geo df = [])
    && decide ((gsAlts geo df).length ≤ 1) && s2GsHeadOk df
    && decide (s2BadUavHead (s2Norm df) = []) && s2GsBattOk (s2Norm df)
    && decide ((uavIds (s2Norm df)).find? (fun uid => badBattery (s2Norm df) uid) = none)

/-- Output order required of the sampler: ascending time, then ascending node
identifier in Python string order. -/
def rowLex (a b : S1Row) : Prop :=
  timeOf a < timeOf b ∨ (timeOf a = timeOf b ∧ pyStrLt (nodeOf a) (nodeOf b))

/-- A single qualifying candidate with constant sampled position, for the
concrete runs below. -/
def candCE : Candidate :=
  ⟨"STARLINK-ONLY", 45, 600, fun _ => 6500000, fun _ => 0, fun _ => 0, fun _ => 550⟩

/-- A catalog holding exactly one qualifying candidate. -/
def catalogCE : List Candidate := [candCE]

/-- Constant stand in for the float square root at the inputs the concrete
runs sample. -/
def sqrtCE : ℚ → ℚ := fun _ => 6500

/-- Fifty qualifying candidates with constant sampled positions. -/
def catalogW : List Candidate :=
  (List.range' 1 MAX_SAT_COUNT).map (fun i =>
    ⟨"STARLINK-W" ++ toString i, 45, ((600 + i : ℕ) : ℚ), fun _ => 6500000,
     fun _ => 0, fun _ => 0, fun _ => 550⟩)

/-- Ground row of the concrete S2 file: static position, sentinel heading and
battery. -/
def gsRowW (k : ℕ) : S2Row :=
  ⟨some ((k * 100 : ℕ) : ℤ), some "GS_01", some "GS", some "GS", some 6500000,
   some 0, some 0, some "10.0.0.1", some (-1), some (-1)⟩

/-- Aerial row i of the concrete S2 file: static position, RELAY role,
heading 90, battery 80. -/
def uavRowW (i : ℕ) (k : ℕ) : S2Row :=
  ⟨some ((k * 100 : ℕ) : ℤ), some ("UAV_0" ++ toString i), some "RELAY", some "UAV",
   some 6500000, some 0, some 0, some ("10.0.0." ++ toString (i + 1)), some 90, some 80⟩

/-- One timestamp block of the concrete S2 file: one ground and three aerial
rows. -/
def blkW (k : ℕ) : List S2Row := [gsRowW k, uavRowW 1 k, uavRowW 2 k, uavRowW 3 k]

/-- A concrete S2 frame with 600 timestamps of one ground and three aerial
rows each. -/
def s2FrameW : S2Frame := ⟨S2_REQUIRED_COLS, (List.range 600).flatMap blkW⟩

/-- Constant geodetic converter for the concrete S2 file: a point inside the
scenario box at 600 metres. -/
def geoW : Geo := fun _ _ _ => (30, 104, 600)

/-- Filename of the concrete S2 file. -/
def s2NameW : String := "uav_trace_0_59999.csv"

/-! ### Generic lemmas about the list machinery -/

theorem insKey_perm {α β : Type} [LinearOrder β] (key : α → β) (x : α) (l : List α) :
    (insKey key x l).Perm (x :: l) := by
  induction l with
  | nil => simp [insKey]
  | cons y ys ih =>
    rw [insKey]
    split
    · exact List.Perm.refl _
    · exact (ih.cons y).trans (List.Perm.swap x y ys)

theorem sortKey_perm {α β : Type} [LinearOrder β] (key : α → β) (l : List α) :
    (sortKey key l).Perm l := by
  induction l with
  | nil => exact List.Perm.refl _
  | cons x xs ih => exact (insKey_perm key x (sortKey key xs)).trans (ih.cons x)

theorem insKey_sorted {α β : Type} [LinearOrder β] (key : α → β) (x : α) (l : List α)
    (h : List.Sorted (fun a b => key a ≤ key b) l) :
    List.Sorted (fun a b => key a ≤ key b) (insKey key x l) := by
  induction l with
  | nil => simp [insKey]
  | cons y ys ih =>
    rw [List.sorted_cons] at h
    rw [insKey]
    split
    · rename_i hxy
      rw [List.sorted_cons]
      refine ⟨?_, List.sorted_cons.2 h⟩
      intro b hb
      rcases List.mem_cons.1 hb with rfl | hb
      · exact hxy
      · exact le_trans hxy (h.1 b hb)
    · rename_i hxy
      rw [List.sorted_cons]
      refine ⟨?_, ih h.2⟩
      intro b hb
      rcases List.mem_cons.1 ((insKey_perm key x ys).mem_iff.1 hb) with rfl | hb2
      · exact le_of_not_le hxy
      · exact h.1 b hb2

theorem sortKey_sorted {α β : Type} [LinearOrder β] (key : α → β) (l : List α) :
    List.Sorted (fun a b => key a ≤ key b) (sortKey key l) := by
  induction l with
  | nil => simp [sortKey]
  | cons x xs ih => exact insKey_sorted key x _ ih

theorem filter_insKey_of_sorted {α β : Type} [LinearOrder β] (key : α → β) (d : β)
    (x : α) (l : List α) (h : List.Sorted (fun a b => key a ≤ key b) l) :
    (insKey key x l).filter (fun a => decide (key a = d)) =
      (if key x = d then [x] else []) ++ l.filter (fun a => decide (key a = d)) := by
  induction l with
  | nil =>
    by_cases hx : key x = d <;> simp [insKey, hx]
  | cons y ys ih =>
    rw [List.sorted_cons] at h
    rw [insKey]
    split
    · rename_i hxy
      by_cases hx : key x = d <;> simp [List.filter_cons, hx]
    · rename_i hxy
      rw [List.filter_cons, List.filter_cons, ih h.2]
      by_cases hy : key y = d
      · have hxd : key x ≠ d := by
          intro hxd
          exact hxy (le_of_eq (hxd.trans hy.symm))
        simp [hy, hxd]
      · simp [hy]

theorem filter_sortKey {α β : Type} [LinearOrder β] (key : α → β) (d : β) (l : List α) :
    (sortKey key l).filter (fun a => decide (key a = d)) =
      l.filter (fun a => decide (key a = d)) := by
  induction l with
  | nil => rfl
  | cons x xs ih =>
    rw [sortKey, filter_insKey_of_sorted key d x _ (sortKey_sorted key xs), ih,
      List.filter_cons]
    by_cases hx : key x = d <;> simp [hx]

theorem sortKey_eq_self {α β : Type} [LinearOrder β] (key : α → β) (l : List α)
    (h : List.Sorted (fun a b => key a ≤ key b) l) : sortKey key l = l := by
  induction l with
  | nil => rfl
  | cons x xs ih =>
    rw [List.sorted_cons] at h
    rw [sortKey, ih h.2]
    cases xs with
    | nil => rfl
    | cons y ys =>
      rw [insKey, if_pos (h.1 y (List.mem_cons_self y ys))]

theorem mem_insU {β : Type} [LinearOrder β] (x a : β) (l : List β) :
    a ∈ insU x l ↔ a = x ∨ a ∈ l := by
  induction l with
  | nil => simp [insU]
  | cons y ys ih =>
    rw [insU]
    split
    · simp [List.mem_cons]
    · split
      · rename_i hlt heq
        subst heq
        simp [List.mem_cons]
      · simp only [List.mem_cons, ih]
        tauto

theorem insU_sorted {β : Type} [LinearOrder β] (x : β) (l : List β)
    (h : List.Sorted (· < ·) l) : List.Sorted (· < ·) (insU x l) := by
  induction l with
  | nil => simp [insU]
  | cons y ys ih =>
    rw [List.sorted_cons] at h
    rw [insU]
    split
    · rename_i hxy
      rw [List.sorted_cons]
      refine ⟨?_, List.sorted_cons.2 h⟩
      intro b hb
      rcases List.mem_cons.1 hb with rfl | hb
      · exact hxy
      · exact lt_trans hxy (h.1 b hb)
    · split
      · exact List.sorted_cons.2 h
      · rename_i hlt heq
        rw [List.sorted_cons]
        refine ⟨?_, ih h.2⟩
        intro b hb
        rcases (mem_insU x b ys).1 hb with rfl | hb2
        · exact lt_of_le_of_ne (le_of_not_lt hlt) (Ne.symm heq)
        · exact h.1 b hb2

theorem sortedUnique_sorted {β : Type} [LinearOrder β] (l : List β) :
    List.Sorted (· < ·) (sortedUnique l) := by
  induction l with
  | nil => simp [sortedUnique]
  | cons x xs ih =>
    simp only [sortedUnique, List.foldr_cons] at *
    exact insU_sorted x _ ih

theorem mem_sortedUnique {β : Type} [LinearOrder β] (l : List β) (a : β) :
    a ∈ sortedUnique l ↔ a ∈ l := by
  induction l with
  | nil => simp [sortedUnique]
  | cons x xs ih =>
    simp only [sortedUnique, List.foldr_cons] at *
    rw [mem_insU, ih, List.mem_cons]

theorem sorted_lt_eq_of_mem {β : Type} [LinearOrder β] (l₁ l₂ : List β)
    (h₁ : List.Sorted (· < ·) l₁) (h₂ : List.Sorted (· < ·) l₂)
    (hm : ∀ a, a ∈ l₁ ↔ a ∈ l₂) : l₁ = l₂ := by
  induction l₁ generalizing l₂ with
  | nil =>
    cases l₂ with
    | nil => rfl
    | cons y ys => exact absurd ((hm y).2 (List.mem_cons_self y ys)) (List.not_mem_nil y)
  | cons x xs ih =>
    cases l₂ with
    | nil => exact absurd ((hm x).1 (List.mem_cons_self x xs)) (List.not_mem_nil x)
    | cons y ys =>
      rw [List.sorted_cons] at h₁ h₂
      have hxy : x = y := by
        rcases List.mem_cons.1 ((hm x).1 (List.mem_cons_self x xs)) with h | h
        · exact h
        · rcases List.mem_cons.1 ((hm y).2 (List.mem_cons_self y ys)) with h' | h'
          · exact h'.symm
          · exact absurd (lt_trans (h₂.1 x h) (h₁.1 y h')) (lt_irrefl y)
      subst hxy
      congr 1
      refine ih ys h₁.2 h₂.2 (fun a => ⟨fun ha => ?_, fun ha => ?_⟩)
      · rcases List.mem_cons.1 ((hm a).1 (List.mem_cons_of_mem x ha)) with rfl | h
        · exact absurd (h₁.1 a ha) (lt_irrefl a)
        · exact h
      · rcases List.mem_cons.1 ((hm a).2 (List.mem_cons_of_mem x ha)) with rfl | h
        · exact absurd (h₂.1 a ha) (lt_irrefl a)
        · exact h

theorem sortedUnique_eq_of_mem {β : Type} [LinearOrder β] (l tgt : List β)
    (hs : List.Sorted (· < ·) tgt) (hm : ∀ a, a ∈ l ↔ a ∈ tgt) :
    sortedUnique l = tgt :=
  sorted_lt_eq_of_mem _ _ (sortedUnique_sorted l) hs
    (fun a => (mem_sortedUnique l a).trans (hm a))

theorem diffs_map_range' (d : ℤ) (f : ℕ → ℤ) (hf : ∀ k, f (k + 1) - f k = d) :
    ∀ (n a : ℕ), diffs ((List.range' a n).map f) = List.replicate (n - 1) d := by
  intro n
  induction n with
  | zero => intro a; rfl
  | succ m ih =>
    intro a
    cases m with
    | zero => rfl
    | succ m' =>
      rw [List.range'_succ, List.map_cons, List.range'_succ, List.map_cons, diffs,
        hf a, ← List.map_cons, ← List.range'_succ, ih (a + 1)]
      rfl

theorem uniqFirst_append_of_subset {β : Type} [DecidableEq β] :
    ∀ (xs ys : List β), (∀ y ∈ ys, y ∈ xs) → uniqFirst (xs ++ ys) = uniqFirst xs
  | [], [], _ => rfl
  | [], y :: ys, h => absurd (h y (List.mem_cons_self y ys)) (List.not_mem_nil y)
  | x :: xs, ys, h => by
    rw [List.cons_append, uniqFirst, uniqFirst, List.filter_append]
    congr 1
    refine uniqFirst_append_of_subset (xs.filter (fun y => decide (y ≠ x)))
      (ys.filter (fun y => decide (y ≠ x))) (fun y hy => ?_)
    rw [List.mem_filter] at hy ⊢
    refine ⟨?_, hy.2⟩
    rcases List.mem_cons.1 (h y hy.1) with rfl | hm
    · exact absurd hy.2 (by simp)
    · exact hm
termination_by xs _ _ => xs.length
decreasing_by
  simp only [List.length_cons]
  exact Nat.lt_succ_of_le (List.length_filter_le _ _)

theorem uniqFirst_map_const {α β : Type} [DecidableEq β] (l : List α) (b : β)
    (h : l ≠ []) : uniqFirst (l.map (fun _ => b)) = [b] := by
  cases l with
  | nil => exact absurd rfl h
  | cons x xs =>
    rw [List.map_cons, uniqFirst]
    have hnil : ((xs.map (fun _ => b)).filter (fun y => decide (y ≠ b))) = [] := by
      rw [List.filter_eq_nil_iff]
      intro a ha
      rcases List.mem_map.1 ha with ⟨_, _, rfl⟩
      simp
    rw [hnil]
    simp [uniqFirst]

theorem dupsAux_eq_nil {β : Type} [DecidableEq β] (seen l : List β)
    (hnd : l.Nodup) (hs : ∀ x ∈ l, x ∉ seen) : dupsAux seen l = [] := by
  induction l generalizing seen with
  | nil => rfl
  | cons x xs ih =>
    rw [dupsAux, if_neg (hs x (List.mem_cons_self x xs))]
    refine ih (x :: seen) (List.Nodup.of_cons hnd) (fun y hy hmem => ?_)
    rcases List.mem_cons.1 hmem with rfl | hseen
    · exact (List.nodup_cons.1 hnd).1 hy
    · exact hs y (List.mem_cons_of_mem x hy) hseen

theorem dups_eq_nil {β : Type} [DecidableEq β] (l : List β) (h : l.Nodup) :
    dups l = [] :=
  dupsAux_eq_nil [] l h (by simp)

theorem chain'_flatMap {α β : Type} (blk : α → List β) (R : β → β → Prop) (ts : List α)
    (hblk : ∀ a ∈ ts, List.Chain' R (blk a))
    (hne : ∀ a ∈ ts, blk a ≠ [])
    (hadj : List.Chain' (fun a b => ∀ x ∈ blk a, ∀ y ∈ blk b, R x y) ts) :
    List.Chain' R (ts.flatMap blk) := by
  induction ts with
  | nil => simp
  | cons t ts ih =>
    rw [List.flatMap_cons]
    refine List.Chain'.append (hblk t (List.mem_cons_self t ts))
      (ih (fun a ha => hblk a (List.mem_cons_of_mem t ha))
        (fun a ha => hne a (List.mem_cons_of_mem t ha)) hadj.tail)
      (fun x hx y hy => ?_)
    cases ts with
    | nil => simp at hy
    | cons u ts' =>
      rw [List.flatMap_cons] at hy
      have hyu : y ∈ blk u := by
        have hhu : (blk u ++ ts'.flatMap blk).head? = (blk u).head? := by
          cases hu : blk u with
          | nil => exact absurd hu (hne u (List.mem_cons_of_mem t (List.mem_cons_self u ts')))
          | cons z zs => simp
        rw [hhu] at hy
        exact List.mem_of_mem_head? hy
      exact (List.chain'_cons.1 hadj).1 x (List.mem_of_mem_getLast? hx) y hyu

theorem flatMap_congr {α β : Type} (f g : α → List β) (l : List α)
    (h : ∀ a ∈ l, f a = g a) : l.flatMap f = l.flatMap g := by
  induction l with
  | nil => rfl
  | cons x xs ih =>
    rw [List.flatMap_cons, List.flatMap_cons, h x (List.mem_cons_self x xs),
      ih (fun a ha => h a (List.mem_cons_of_mem x ha))]

theorem flatMap_ite_filter {α β : Type} (p : α → Bool) (f : α → List β) (l : List α) :
    (l.flatMap fun a => if p a then f a else []) = (l.filter p).flatMap f := by
  induction l with
  | nil => rfl
  | cons x xs ih =>
    rw [List.flatMap_cons, List.filter_cons]
    by_cases hx : p x = true <;> simp [hx, ih]

theorem filter_const_block {α : Type} (p : α → Bool) (l : List α) (b : Bool)
    (h : ∀ r ∈ l, p r = b) : l.filter p = if b then l else [] := by
  cases b
  · rw [show (if (false : Bool) then l else []) = [] from rfl]
    exact List.filter_eq_nil_iff.2 (fun a ha => by simp [h a ha])
  · rw [show (if (true : Bool) then l else []) = l from rfl]
    exact List.filter_eq_self.2 (fun a ha => h a ha)

/-! ### Grid lemmas: flat maps of per-timestamp blocks -/

theorem sortedUnique_map_flatMap {ι α : Type} (tm : α → ℤ) (key : ι → ℤ) (ts : List ι)
    (blk : ι → List α)
    (hts : List.Sorted (· < ·) (ts.map key))
    (htm : ∀ t ∈ ts, ∀ r ∈ blk t, tm r = key t)
    (hne : ∀ t ∈ ts, blk t ≠ []) :
    sortedUnique ((ts.flatMap blk).map tm) = ts.map key := by
  refine sortedUnique_eq_of_mem _ _ hts (fun a => ⟨fun ha => ?_, fun ha => ?_⟩)
  · rcases List.mem_map.1 ha with ⟨r, hr, rfl⟩
    rcases List.mem_flatMap.1 hr with ⟨t, ht, hrt⟩
    rw [htm t ht r hrt]
    exact List.mem_map_of_mem key ht
  · rcases List.mem_map.1 ha with ⟨t, ht, rfl⟩
    rcases List.exists_mem_of_ne_nil _ (hne t ht) with ⟨r, hr⟩
    exact List.mem_map.2 ⟨r, List.mem_flatMap.2 ⟨t, ht, hr⟩, htm t ht r hr⟩

theorem countP_flatMap_blocks {ι α : Type} (tm : α → ℤ) (key : ι → ℤ) (blk : ι → List α) :
    ∀ ts : List ι, (ts.map key).Nodup → (∀ u ∈ ts, ∀ r ∈ blk u, tm r = key u) →
      ∀ t ∈ ts, (ts.flatMap blk).countP (fun r => decide (tm r = key t)) = (blk t).length := by
  intro ts
  induction ts with
  | nil =>
    intro _ _ t ht
    exact absurd ht (List.not_mem_nil t)
  | cons u us ih =>
    intro hnd htm t ht
    rw [List.map_cons, List.nodup_cons] at hnd
    rw [List.flatMap_cons, List.countP_append]
    rcases List.mem_cons.1 ht with rfl | htus
    · have h1 : (blk t).countP (fun r => decide (tm r = key t)) = (blk t).length :=
        List.countP_eq_length.2
          (fun r hr => by simp [htm t (List.mem_cons_self t us) r hr])
      have h2 : (us.flatMap blk).countP (fun r => decide (tm r = key t)) = 0 := by
        rw [List.countP_eq_zero]
        intro r hr
        rcases List.mem_flatMap.1 hr with ⟨v, hv, hrv⟩
        have hveq : tm r = key v := htm v (List.mem_cons_of_mem _ hv) r hrv
        have hvt : key v ≠ key t := fun he => hnd.1 (he ▸ List.mem_map_of_mem key hv)
        simp [hveq, hvt]
      omega
    · have h1 : (blk u).countP (fun r => decide (tm r = key t)) = 0 := by
        rw [List.countP_eq_zero]
        intro r hr
        have hueq : tm r = key u := htm u (List.mem_cons_self u us) r hr
        have hut : key u ≠ key t := fun he => hnd.1 (he ▸ List.mem_map_of_mem key htus)
        simp [hueq, hut]
      rw [h1, ih hnd.2 (fun v hv => htm v (List.mem_cons_of_mem u hv)) t htus]
      omega

theorem pairsNodup_flatMap {ι α : Type} (tm : α → ℤ) (nd : α → String) (key : ι → ℤ)
    (ts : List ι) (blk : ι → List α) (hts : (ts.map key).Nodup)
    (htm : ∀ t ∈ ts, ∀ r ∈ blk t, tm r = key t)
    (hblk : ∀ t ∈ ts, ((blk t).map nd).Nodup) :
    ((ts.flatMap blk).map (fun r => (tm r, nd r))).Nodup := by
  rw [List.map_flatMap, List.nodup_flatMap]
  constructor
  · intro t ht
    have hsnd : (((blk t).map (fun r => (tm r, nd r))).map Prod.snd).Nodup := by
      rw [List.map_map]
      exact hblk t ht
    exact hsnd.of_map Prod.snd
  · have hpw : ts.Pairwise (fun a b => key a ≠ key b) := List.pairwise_map.1 hts
    refine hpw.imp_of_mem (fun {a b} ha hb hk => ?_)
    intro x hxa hxb
    rcases List.mem_map.1 hxa with ⟨r, hr, rfl⟩
    rcases List.mem_map.1 hxb with ⟨r', hr', he⟩
    have h1 : tm r = key a := htm a ha r hr
    have h2 : tm r' = key b := htm b hb r' hr'
    have : tm r' = tm r := congrArg Prod.fst he
    exact hk (h1 ▸ this ▸ h2)

/-! ### Structure of the generated frame and its chunks -/

theorem genFrame_cols (sqrtFn : ℚ → ℚ) (m : List SatMeta) :
    (genFrame sqrtFn m).cols = S1_GEN_COLS ++ ["radius_km"] := by
  rw [genFrame, addRadius]
  rw [show (trajFrame m).cols = S1_GEN_COLS from rfl]
  rw [if_neg (by decide)]

theorem genFrame_rows (sqrtFn : ℚ → ℚ) (m : List SatMeta) :
    (genFrame sqrtFn m).rows = (List.range 600).flatMap (fun k => m.map (radRow sqrtFn k)) := by
  rw [genFrame, addRadius]
  show (trajRows m).map _ = _
  rw [trajRows, show TOTAL_STEPS = 600 from rfl, List.map_flatMap]
  refine flatMap_congr _ _ _ (fun k _ => ?_)
  rw [List.map_map]
  rfl

theorem timeOf_radRow (sqrtFn : ℚ → ℚ) (k : ℕ) (s : SatMeta) :
    timeOf (radRow sqrtFn k s) = stepMs k := rfl

theorem rowNullCols_radRow (sqrtFn : ℚ → ℚ) (k : ℕ) (s : SatMeta) :
    rowNullCols (radRow sqrtFn k s) = [] := rfl

theorem stepMs_strictMono (i j : ℕ) (h : i < j) : stepMs i < stepMs j := by
  simp only [stepMs, TIME_STEP_SEC, MS_PER_SEC]
  push_cast
  omega

theorem writerMem_stepMs (c k : ℕ) :
    writerMem c (stepMs k) = decide (c * 60 ≤ k ∧ k < c * 60 + 60) := by
  rw [writerMem, ← Bool.decide_and]
  refine decide_eq_decide.2 ?_
  simp only [chunkStartMs, chunkEndMs, stepMs, CHUNK_DURATION_SEC, MS_PER_SEC, TIME_STEP_SEC]
  push_cast
  omega

theorem filter_range_window (c : ℕ) (hc : c < 10) :
    (List.range 600).filter (fun k => decide (c * 60 ≤ k ∧ k < c * 60 + 60)) =
      List.range' (c * 60) 60 := by
  apply sorted_lt_eq_of_mem
  · exact List.Pairwise.sublist (List.filter_sublist _) (List.pairwise_lt_range 600)
  · exact List.pairwise_lt_range' _ _
  · intro a
    rw [List.mem_filter, List.mem_range, List.mem_range'_1]
    simp only [decide_eq_true_eq]
    omega

theorem chunkRows_genFrame (sqrtFn : ℚ → ℚ) (m : List SatMeta) (c : ℕ) (hc : c < 10) :
    chunkRows c (genFrame sqrtFn m) =
      (List.range' (c * 60) 60).flatMap (fun k => m.map (radRow sqrtFn k)) := by
  rw [chunkRows, genFrame_rows, List.filter_flatMap]
  have hblk : ∀ k ∈ List.range 600,
      (m.map (radRow sqrtFn k)).filter (fun r => writerMem c (timeOf r)) =
        if decide (c * 60 ≤ k ∧ k < c * 60 + 60) then m.map (radRow sqrtFn k) else [] := by
    intro k _
    refine filter_const_block _ _ _ (fun r hr => ?_)
    rcases List.mem_map.1 hr with ⟨s, _, rfl⟩
    rw [timeOf_radRow, writerMem_stepMs]
  rw [flatMap_congr _ _ _ hblk, flatMap_ite_filter, filter_range_window c hc]

/-! ### The selector and the metadata -/

theorem satIds_pairwise_50 : ((List.range' 1 50).map satId).Pairwise pyStrLt := by decide

theorem satIps_valid_50 : ∀ i ∈ List.range' 1 50, isIpWith "10.0.3." (satIp i) = true := by
  decide

theorem writerFileNames_valid :
    ∀ c ∈ List.range 10, isTraceName "sat_trace_" (writerFileName c) = true := by decide

theorem pyStrLt_ne (a b : String) (h : pyStrLt a b) : a ≠ b := by
  intro he
  subst he
  exact absurd h (lt_irrefl a.data)

theorem selectedSats_length (catalog : List Candidate) :
    (selectedSats catalog).length = min MAX_SAT_COUNT (catalog.countP qualB) := by
  rw [selectedSats, List.length_take, sortedSats, (sortKey_perm _ _).length_eq, visibleSats,
    ← List.countP_eq_length_filter]

theorem selectedSats_length_le (catalog : List Candidate) :
    (selectedSats catalog).length ≤ 50 := by
  rw [selectedSats]
  exact List.length_take_le _ _

theorem satMetadata_length (catalog : List Candidate) :
    (satMetadata catalog).length = (selectedSats catalog).length := by
  rw [satMetadata, List.length_map, List.enumFrom_length]

theorem satMetadata_nodeIds (catalog : List Candidate) :
    (satMetadata catalog).map (fun s => s.node_id) =
      (List.range' 1 (selectedSats catalog).length).map satId := by
  rw [satMetadata, List.map_map]
  have hc : ((fun s : SatMeta => s.node_id) ∘ fun p : ℕ × Candidate =>
      ({ node_id := satId p.1, sname := p.2.sname, ip := satIp p.1, orbit_id := -1,
         sat := p.2 } : SatMeta)) = satId ∘ Prod.fst := rfl
  rw [hc, ← List.map_map, List.enumFrom_map_fst]

theorem satMetadata_ips (catalog : List Candidate) :
    (satMetadata catalog).map (fun s => s.ip) =
      (List.range' 1 (selectedSats catalog).length).map satIp := by
  rw [satMetadata, List.map_map]
  have hc : ((fun s : SatMeta => s.ip) ∘ fun p : ℕ × Candidate =>
      ({ node_id := satId p.1, sname := p.2.sname, ip := satIp p.1, orbit_id := -1,
         sat := p.2 } : SatMeta)) = satIp ∘ Prod.fst := rfl
  rw [hc, ← List.map_map, List.enumFrom_map_fst]

theorem satMetadata_sat_mem (catalog : List Candidate) (s : SatMeta)
    (hs : s ∈ satMetadata catalog) : s.sat ∈ catalog := by
  rw [satMetadata] at hs
  rcases List.mem_map.1 hs with ⟨p, hp, rfl⟩
  have h2 : p.2 ∈ selectedSats catalog := by
    have := List.mem_map_of_mem Prod.snd hp
    rwa [List.enumFrom_map_snd] at this
  have h3 : p.2 ∈ sortedSats catalog := List.take_subset _ _ h2
  have h4 := (sortKey_perm (fun c => c.dist0) (visibleSats catalog)).mem_iff.1 h3
  exact List.mem_of_mem_filter h4

theorem range'_one_sublist (len : ℕ) (h : len ≤ 50) :
    (List.range' 1 len).Sublist (List.range' 1 50) := by
  have h2 : List.range' 1 len ++ List.range' (1 + 1 * len) (50 - len) = List.range' 1 50 := by
    rw [List.range'_append]
    congr 1
    omega
  exact h2 ▸ List.sublist_append_left _ _

theorem satMetadata_ids_pairwise (catalog : List Candidate) :
    ((satMetadata catalog).map (fun s => s.node_id)).Pairwise pyStrLt := by
  rw [satMetadata_nodeIds]
  exact List.Pairwise.sublist
    (List.Sublist.map satId (range'_one_sublist _ (selectedSats_length_le catalog)))
    satIds_pairwise_50

theorem satMetadata_ids_nodup (catalog : List Candidate) :
    ((satMetadata catalog).map (fun s => s.node_id)).Nodup :=
  (satMetadata_ids_pairwise catalog).imp (fun h => pyStrLt_ne _ _ h)

theorem satMetadata_ips_valid (catalog : List Candidate) :
    ∀ s ∈ satMetadata catalog, isIpWith "10.0.3." s.ip = true := by
  intro s hs
  have hmem : s.ip ∈ (satMetadata catalog).map (fun s => s.ip) :=
    List.mem_map_of_mem _ hs
  rw [satMetadata_ips] at hmem
  rcases List.mem_map.1 hmem with ⟨i, hi, he⟩
  have hsub := range'_one_sublist _ (selectedSats_length_le catalog)
  rw [← he]
  exact satIps_valid_50 i (hsub.subset hi)

/-! ### Per chunk facts about the written frames -/

theorem stepKeys_sorted (a n : ℕ) : List.Sorted (· < ·) ((List.range' a n).map stepMs) :=
  List.pairwise_map.2 ((List.pairwise_lt_range' a n).imp
    (fun h => stepMs_strictMono _ _ h))

theorem stepKeys_nodup (a n : ℕ) : ((List.range' a n).map stepMs).Nodup :=
  (stepKeys_sorted a n).imp (fun h => ne_of_lt h)

theorem frameTimes_chunkFrame (c : ℕ) (f : S1Frame) :
    frameTimes (chunkFrame c f) = (chunkRows c f).map timeOf := rfl

theorem chunk_sortedUnique (sqrtFn : ℚ → ℚ) (m : List SatMeta) (c : ℕ) (hc : c < 10)
    (hm : m ≠ []) :
    sortedUnique (frameTimes (chunkFrame c (genFrame sqrtFn m))) =
      (List.range' (c * 60) 60).map stepMs := by
  rw [frameTimes_chunkFrame, chunkRows_genFrame sqrtFn m c hc]
  refine sortedUnique_map_flatMap timeOf stepMs _ _ (stepKeys_sorted _ _) ?_ ?_
  · intro k _ r hr
    rcases List.mem_map.1 hr with ⟨s, _, rfl⟩
    exact timeOf_radRow sqrtFn k s
  · intro k _ he
    exact hm (List.map_eq_nil_iff.1 he)

theorem chunk_counts (sqrtFn : ℚ → ℚ) (m : List SatMeta) (c : ℕ) (hc : c < 10)
    (k : ℕ) (hk : k ∈ List.range' (c * 60) 60) :
    (chunkRows c (genFrame sqrtFn m)).countP (fun r => decide (timeOf r = stepMs k)) =
      m.length := by
  rw [chunkRows_genFrame sqrtFn m c hc]
  rw [countP_flatMap_blocks timeOf stepMs _ _ (stepKeys_nodup _ _) ?_ k hk]
  · exact List.length_map _ _
  · intro u _ r hr
    rcases List.mem_map.1 hr with ⟨s, _, rfl⟩
    exact timeOf_radRow sqrtFn u s

theorem chunk_groupSizes (sqrtFn : ℚ → ℚ) (m : List SatMeta) (c : ℕ) (hc : c < 10)
    (hm : m ≠ []) :
    groupSizes (chunkFrame c (genFrame sqrtFn m)) =
      (List.range' (c * 60) 60).map (fun k => (stepMs k, m.length)) := by
  rw [groupSizes, chunk_sortedUnique sqrtFn m c hc hm, List.map_map]
  refine List.map_congr_left (fun k hk => ?_)
  show (stepMs k, _) = (stepMs k, m.length)
  rw [Prod.mk.injEq]
  exact ⟨rfl, chunk_counts sqrtFn m c hc k hk⟩

theorem chunk_abnormal_empty (sqrtFn : ℚ → ℚ) (m : List SatMeta) (c : ℕ) (hc : c < 10)
    (hlen : m.length = 50) :
    s1AbnormalGroups (chunkFrame c (genFrame sqrtFn m)) = [] := by
  have hm : m ≠ [] := by
    intro he
    rw [he] at hlen
    simp at hlen
  rw [s1AbnormalGroups, chunk_groupSizes sqrtFn m c hc hm, List.filter_eq_nil_iff]
  intro p hp
  rcases List.mem_map.1 hp with ⟨k, _, rfl⟩
  simp [hlen]

theorem chunk_mem (sqrtFn : ℚ → ℚ) (m : List SatMeta) (c : ℕ) (hc : c < 10)
    (r : S1Row) (hr : r ∈ chunkRows c (genFrame sqrtFn m)) :
    ∃ k, k < 600 ∧ ∃ s ∈ m, r = radRow sqrtFn k s := by
  rw [chunkRows_genFrame sqrtFn m c hc] at hr
  rcases List.mem_flatMap.1 hr with ⟨k, hk, hrk⟩
  rcases List.mem_map.1 hrk with ⟨s, hs, rfl⟩
  rw [List.mem_range'_1] at hk
  exact ⟨k, by omega, s, hs, rfl⟩

theorem chunk_no_nulls (sqrtFn : ℚ → ℚ) (m : List SatMeta) (c : ℕ) (hc : c < 10) :
    hasNulls (chunkFrame c (genFrame sqrtFn m)) = false := by
  rw [hasNulls, List.any_eq_false]
  intro r hr
  rcases chunk_mem sqrtFn m c hc r hr with ⟨k, _, s, _, rfl⟩
  simp [rowNullCols_radRow]

theorem chunk_dups_empty (sqrtFn : ℚ → ℚ) (m : List SatMeta) (c : ℕ) (hc : c < 10)
    (hnd : (m.map (fun s => s.node_id)).Nodup) :
    s1DupPairs (chunkFrame c (genFrame sqrtFn m)) = [] := by
  rw [s1DupPairs]
  refine dups_eq_nil _ ?_
  show (((chunkRows c (genFrame sqrtFn m))).map _).Nodup
  rw [chunkRows_genFrame sqrtFn m c hc]
  refine pairsNodup_flatMap timeOf nodeOf stepMs _ _ (stepKeys_nodup _ _) ?_ ?_
  · intro k _ r hr
    rcases List.mem_map.1 hr with ⟨s, _, rfl⟩
    exact timeOf_radRow sqrtFn k s
  · intro k _
    rw [List.map_map]
    exact hnd

theorem chunk_badSteps_empty (sqrtFn : ℚ → ℚ) (m : List SatMeta) (c : ℕ) (hc : c < 10)
    (hm : m ≠ []) :
    s1BadSteps (chunkFrame c (genFrame sqrtFn m)) = [] := by
  rw [s1BadSteps, chunk_sortedUnique sqrtFn m c hc hm,
    diffs_map_range' 1000 stepMs ?_ 60 (c * 60)]
  · have hf : (List.replicate (60 - 1) (1000 : ℤ)).filter (fun d => decide (d ≠ 1000)) = [] := by
      rw [List.filter_eq_nil_iff]
      intro a ha
      rw [List.eq_of_mem_replicate ha]
      simp
    rw [hf]
    rfl
  · intro k
    simp only [stepMs, TIME_STEP_SEC, MS_PER_SEC]
    push_cast
    omega

/-! ### The generation time validation on the generated frame -/

theorem expectedSteps_eq : expectedSteps = (List.range 600).map stepMs := by
  rw [expectedSteps,
    show SIM_DURATION_SEC * MS_PER_SEC / (TIME_STEP_SEC * MS_PER_SEC) = 600 from rfl]
  refine List.map_congr_left (fun k _ => ?_)
  simp only [stepMs, TIME_STEP_SEC, MS_PER_SEC]
  congr 1
  omega

theorem genFrame_times_eq (sqrtFn : ℚ → ℚ) (m : List SatMeta) (hm : m ≠ []) :
    sortedUnique (frameTimes (genFrame sqrtFn m)) = expectedSteps := by
  rw [expectedSteps_eq]
  show sortedUnique ((genFrame sqrtFn m).rows.map timeOf) = _
  rw [genFrame_rows, List.range_eq_range']
  refine sortedUnique_map_flatMap timeOf stepMs _ _ (stepKeys_sorted 0 600) ?_ ?_
  · intro k _ r hr
    rcases List.mem_map.1 hr with ⟨s, _, rfl⟩
    exact timeOf_radRow sqrtFn k s
  · intro k _ he
    exact hm (List.map_eq_nil_iff.1 he)

theorem genFrame_no_nulls (sqrtFn : ℚ → ℚ) (m : List SatMeta) :
    hasNulls (genFrame sqrtFn m) = false := by
  rw [hasNulls, List.any_eq_false]
  intro r hr
  rw [genFrame_rows] at hr
  rcases List.mem_flatMap.1 hr with ⟨k, _, hrk⟩
  rcases List.mem_map.1 hrk with ⟨s, _, rfl⟩
  simp [rowNullCols_radRow]

theorem genFrame_missing (sqrtFn : ℚ → ℚ) (m : List SatMeta) :
    genMissingCols (genFrame sqrtFn m) = [] := by
  rw [genMissingCols, show (genFrame sqrtFn m).cols = S1_GEN_COLS ++ ["radius_km"] from
    genFrame_cols sqrtFn m]
  decide

theorem genFrame_radius_ok (sqrtFn : ℚ → ℚ) (m : List SatMeta)
    (hrad : ∀ s ∈ m, ∀ k, k < 600 → sampleRadius sqrtFn s.sat k ≤ 7000) :
    genBadRadius (genFrame sqrtFn m) = [] := by
  rw [genBadRadius, List.filter_eq_nil_iff]
  intro r hr
  rw [genFrame_rows] at hr
  rcases List.mem_flatMap.1 hr with ⟨k, hk, hrk⟩
  rcases List.mem_map.1 hrk with ⟨s, hs, rfl⟩
  rw [List.mem_range] at hk
  have hle := hrad s hs k hk
  intro hcon
  rw [decide_eq_true_eq] at hcon
  exact absurd hcon (not_lt.2 hle)

theorem genChecksPass_of (sqrtFn : ℚ → ℚ) (m : List SatMeta) (hm : m ≠ [])
    (hrad : ∀ s ∈ m, ∀ k, k < 600 → sampleRadius sqrtFn s.sat k ≤ 7000) :
    genChecksPass sqrtFn (trajFrame m) = true := by
  rw [genChecksPass,
    show addRadius sqrtFn (trajFrame m) = genFrame sqrtFn m from rfl,
    genFrame_missing, genFrame_times_eq sqrtFn m hm, genFrame_radius_ok sqrtFn m hrad,
    genFrame_no_nulls]
  simp

/-! ### The full validator on a written chunk -/

theorem chunk_pass (sqrtFn : ℚ → ℚ) (m : List SatMeta) (c : ℕ) (hc : c < 10)
    (hlen : m.length = 50)
    (hnd : (m.map (fun s => s.node_id)).Nodup)
    (halt : ∀ s ∈ m, ∀ k, k < 600 →
      200 ≤ round2 (s.sat.altKm k) ∧ round2 (s.sat.altKm k) ≤ 1200)
    (hrad : ∀ s ∈ m, ∀ k, k < 600 →
      6371 ≤ sampleRadius sqrtFn s.sat k ∧ sampleRadius sqrtFn s.sat k ≤ 7000)
    (hip : ∀ s ∈ m, isIpWith "10.0.3." s.ip = true) :
    validateS1 (writerFileName c) (.ok (chunkFrame c (genFrame sqrtFn m))) = .pass := by
  have hm : m ≠ [] := by
    intro he
    rw [he] at hlen
    exact absurd hlen (by decide)
  have hname := writerFileNames_valid c (List.mem_range.2 hc)
  have hmiss : s1MissingCols (chunkFrame c (genFrame sqrtFn m)) = [] := by
    rw [s1MissingCols, show (chunkFrame c (genFrame sqrtFn m)).cols =
      S1_GEN_COLS ++ ["radius_km"] from genFrame_cols sqrtFn m]
    decide
  have hnull := chunk_no_nulls sqrtFn m c hc
  have habn := chunk_abnormal_empty sqrtFn m c hc hlen
  have hdup := chunk_dups_empty sqrtFn m c hc hnd
  have htimes := chunk_sortedUnique sqrtFn m c hc hm
  have hsteps := chunk_badSteps_empty sqrtFn m c hc hm
  have hnover : sortedUnique (frameTimes (chunkFrame c (genFrame sqrtFn m))) ≠ [] := by
    rw [htimes]
    simp
  have hcount : (sortedUnique (frameTimes (chunkFrame c (genFrame sqrtFn m)))).length = 60 := by
    rw [htimes, List.length_map, List.length_range']
  have htype : s1AllSat (chunkFrame c (genFrame sqrtFn m)) = true := by
    rw [s1AllSat, List.all_eq_true]
    intro r hr
    rcases chunk_mem sqrtFn m c hc r hr with ⟨k, _, s, _, rfl⟩
    simp [radRow, mkTraceRow]
  have halt2 : s1BadAlt (chunkFrame c (genFrame sqrtFn m)) = [] := by
    rw [s1BadAlt, List.map_eq_nil_iff, List.filter_eq_nil_iff]
    intro r hr
    rcases chunk_mem sqrtFn m c hc r hr with ⟨k, hk, s, hs, rfl⟩
    have h1 := (halt s hs k hk).1
    have h2 := (halt s hs k hk).2
    intro hcon
    rw [Bool.or_eq_true, decide_eq_true_eq, decide_eq_true_eq] at hcon
    rcases hcon with hlt | hgt
    · exact absurd hlt (not_lt.2 h1)
    · exact absurd hgt (not_lt.2 h2)
  have hrad2 : s1BadRad (chunkFrame c (genFrame sqrtFn m)) = [] := by
    rw [s1BadRad, List.map_eq_nil_iff, List.filter_eq_nil_iff]
    intro r hr
    rcases chunk_mem sqrtFn m c hc r hr with ⟨k, hk, s, hs, rfl⟩
    have h1 := (hrad s hs k hk).1
    have h2 := (hrad s hs k hk).2
    intro hcon
    rw [Bool.or_eq_true, decide_eq_true_eq, decide_eq_true_eq] at hcon
    rcases hcon with hlt | hgt
    · exact absurd hlt (not_lt.2 h1)
    · exact absurd hgt (not_lt.2 h2)
  have hip2 : s1BadIps (chunkFrame c (genFrame sqrtFn m)) = [] := by
    rw [s1BadIps, List.map_eq_nil_iff, List.filter_eq_nil_iff]
    intro r hr
    rcases chunk_mem sqrtFn m c hc r hr with ⟨k, _, s, hs, rfl⟩
    simp [radRow, mkTraceRow, hip s hs]
  simp [validateS1, hname, hmiss, hnull, habn, hdup, hsteps, hnover, hcount, htype,
    halt2, hrad2, hip2]

theorem countP_eraseIdx {α : Type} (p : α → Bool) :
    ∀ (l : List α) (i : ℕ) (hi : i < l.length),
      (l.eraseIdx i).countP p + (if p l[i] then 1 else 0) = l.countP p := by
  intro l
  induction l with
  | nil =>
    intro i hi
    exact absurd hi (by simp)
  | cons x xs ih =>
    intro i hi
    cases i with
    | zero =>
      show xs.countP p + _ = _
      rw [List.countP_cons, List.getElem_cons_zero]
    | succ j =>
      have hj : j < xs.length := by simpa using hi
      show (x :: xs.eraseIdx j).countP p + _ = _
      rw [List.countP_cons, List.countP_cons, List.getElem_cons_succ]
      have := ih j hj
      omega

theorem chunk_delete_fail (sqrtFn : ℚ → ℚ) (m : List SatMeta) (c : ℕ) (hc : c < 10)
    (hlen : m.length = 50) (i : ℕ)
    (hi : i < (chunkRows c (genFrame sqrtFn m)).length) :
    isGroupFailS1 (validateS1 (writerFileName c)
      (.ok ⟨(chunkFrame c (genFrame sqrtFn m)).cols,
            (chunkRows c (genFrame sqrtFn m)).eraseIdx i⟩)) = true := by
  have hm : m ≠ [] := by
    intro he
    rw [he] at hlen
    exact absurd hlen (by decide)
  obtain ⟨r0, hr0mem, hr0eq⟩ :
      ∃ r0, r0 ∈ chunkRows c (genFrame sqrtFn m) ∧
        (chunkRows c (genFrame sqrtFn m))[i] = r0 :=
    ⟨_, List.getElem_mem hi, rfl⟩
  rw [chunkRows_genFrame sqrtFn m c hc] at hr0mem
  rcases List.mem_flatMap.1 hr0mem with ⟨k0, hk0, hrk0⟩
  rcases List.mem_map.1 hrk0 with ⟨s0, hs0, he0⟩
  have htime0 : timeOf (chunkRows c (genFrame sqrtFn m))[i] = stepMs k0 := by
    rw [hr0eq, ← he0]
    rfl
  have hcnt : (chunkRows c (genFrame sqrtFn m)).countP
      (fun r => decide (timeOf r = stepMs k0)) = 50 := by
    rw [chunk_counts sqrtFn m c hc k0 hk0, hlen]
  have hcnt' : ((chunkRows c (genFrame sqrtFn m)).eraseIdx i).countP
      (fun r => decide (timeOf r = stepMs k0)) = 49 := by
    have hsum := countP_eraseIdx (fun r => decide (timeOf r = stepMs k0))
      (chunkRows c (genFrame sqrtFn m)) i hi
    rw [htime0] at hsum
    simp at hsum
    omega
  have hmem0 : stepMs k0 ∈ sortedUnique (frameTimes
      (⟨(chunkFrame c (genFrame sqrtFn m)).cols,
        (chunkRows c (genFrame sqrtFn m)).eraseIdx i⟩ : S1Frame)) := by
    rw [mem_sortedUnique]
    have hpos : 0 < ((chunkRows c (genFrame sqrtFn m)).eraseIdx i).countP
        (fun r => decide (timeOf r = stepMs k0)) := by omega
    rcases List.countP_pos_iff.1 hpos with ⟨r, hrmem, hrp⟩
    rw [decide_eq_true_eq] at hrp
    exact hrp ▸ List.mem_map_of_mem timeOf hrmem
  have habmem : (stepMs k0, 49) ∈ s1AbnormalGroups
      (⟨(chunkFrame c (genFrame sqrtFn m)).cols,
        (chunkRows c (genFrame sqrtFn m)).eraseIdx i⟩ : S1Frame) := by
    rw [s1AbnormalGroups, List.mem_filter]
    constructor
    · rw [groupSizes]
      refine List.mem_map.2 ⟨stepMs k0, hmem0, ?_⟩
      rw [Prod.mk.injEq]
      exact ⟨rfl, hcnt'⟩
    · simp
  have hname := writerFileNames_valid c (List.mem_range.2 hc)
  have hmiss : s1MissingCols (⟨(chunkFrame c (genFrame sqrtFn m)).cols,
      (chunkRows c (genFrame sqrtFn m)).eraseIdx i⟩ : S1Frame) = [] := by
    rw [s1MissingCols, show (⟨(chunkFrame c (genFrame sqrtFn m)).cols,
      (chunkRows c (genFrame sqrtFn m)).eraseIdx i⟩ : S1Frame).cols =
      S1_GEN_COLS ++ ["radius_km"] from genFrame_cols sqrtFn m]
    decide
  have hnull : hasNulls (⟨(chunkFrame c (genFrame sqrtFn m)).cols,
      (chunkRows c (genFrame sqrtFn m)).eraseIdx i⟩ : S1Frame) = false := by
    rw [hasNulls, List.any_eq_false]
    intro r hrm
    have hrr : r ∈ chunkRows c (genFrame sqrtFn m) :=
      (List.eraseIdx_sublist (chunkRows c (genFrame sqrtFn m)) i).subset hrm
    rcases chunk_mem sqrtFn m c hc r hrr with ⟨k, _, s, _, rfl⟩
    simp [rowNullCols_radRow]
  have habn : s1AbnormalGroups (⟨(chunkFrame c (genFrame sqrtFn m)).cols,
      (chunkRows c (genFrame sqrtFn m)).eraseIdx i⟩ : S1Frame) ≠ [] :=
    List.ne_nil_of_mem habmem
  simp [validateS1, hname, hmiss, hnull, habn, isGroupFailS1]

theorem chunk_group_fail_of_ne50 (sqrtFn : ℚ → ℚ) (m : List SatMeta) (c : ℕ) (hc : c < 10)
    (hm : m ≠ []) (hne : m.length ≠ 50) :
    isGroupFailS1 (validateS1 (writerFileName c)
      (.ok (chunkFrame c (genFrame sqrtFn m)))) = true := by
  have hname := writerFileNames_valid c (List.mem_range.2 hc)
  have hmiss : s1MissingCols (chunkFrame c (genFrame sqrtFn m)) = [] := by
    rw [s1MissingCols, show (chunkFrame c (genFrame sqrtFn m)).cols =
      S1_GEN_COLS ++ ["radius_km"] from genFrame_cols sqrtFn m]
    decide
  have hnull := chunk_no_nulls sqrtFn m c hc
  have habn : s1AbnormalGroups (chunkFrame c (genFrame sqrtFn m)) ≠ [] := by
    rw [s1AbnormalGroups, chunk_groupSizes sqrtFn m c hc hm]
    intro he
    rw [List.filter_eq_nil_iff] at he
    have hmem : (stepMs (c * 60), m.length) ∈
        (List.range' (c * 60) 60).map (fun k => (stepMs k, m.length)) := by
      refine List.mem_map.2 ⟨c * 60, ?_, rfl⟩
      rw [List.mem_range'_1]
      omega
    have hcon := he _ hmem
    simp [hne] at hcon
  simp [validateS1, hname, hmiss, hnull, habn, isGroupFailS1]

/-! ### Filenames and manifest arithmetic -/

theorem fileNames_eq (c : ℕ) : manifestFileName c = writerFileName c := by
  rw [manifestFileName, writerFileName]
  have h : (c + 1) * CHUNK_DURATION_SEC * MS_PER_SEC - 1 =
      (c * CHUNK_DURATION_SEC + CHUNK_DURATION_SEC) * MS_PER_SEC - 1 := by
    simp only [CHUNK_DURATION_SEC, MS_PER_SEC]
    ring_nf
  rw [h]

/-! ### Counting one trace point per node and timestamp -/

theorem countP_flatMap_zero {ι α : Type} (p : α → Bool) (blk : ι → List α) :
    ∀ ts : List ι, (∀ u ∈ ts, (blk u).countP p = 0) → (ts.flatMap blk).countP p = 0 := by
  intro ts
  induction ts with
  | nil => intro _; rfl
  | cons u us ih =>
    intro h
    rw [List.flatMap_cons, List.countP_append, h u (List.mem_cons_self u us),
      ih (fun v hv => h v (List.mem_cons_of_mem u hv))]

theorem countP_flatMap_single {ι α : Type} (p : α → Bool) (blk : ι → List α) :
    ∀ ts : List ι, ts.Nodup → ∀ t ∈ ts, (∀ u ∈ ts, u ≠ t → (blk u).countP p = 0) →
      (ts.flatMap blk).countP p = (blk t).countP p := by
  intro ts
  induction ts with
  | nil =>
    intro _ t ht
    exact absurd ht (List.not_mem_nil t)
  | cons u us ih =>
    intro hnd t ht hz
    rw [List.flatMap_cons, List.countP_append]
    rcases List.mem_cons.1 ht with rfl | hmem
    · rw [countP_flatMap_zero p blk us
        (fun v hv => hz v (List.mem_cons_of_mem t hv)
          (fun he => (List.nodup_cons.1 hnd).1 (he ▸ hv)))]
      omega
    · rw [hz u (List.mem_cons_self u us) (fun he => (List.nodup_cons.1 hnd).1 (he ▸ hmem)),
        ih (List.Nodup.of_cons hnd) t hmem
          (fun v hv hvt => hz v (List.mem_cons_of_mem u hv) hvt)]
      omega

theorem countP_eq_one_of_nodup {β : Type} [DecidableEq β] (l : List β) (a : β)
    (hnd : l.Nodup) (ha : a ∈ l) : l.countP (fun x => decide (x = a)) = 1 := by
  induction l with
  | nil => exact absurd ha (List.not_mem_nil a)
  | cons x xs ih =>
    rw [List.countP_cons]
    rcases List.mem_cons.1 ha with rfl | hmem
    · have hnx : a ∉ xs := (List.nodup_cons.1 hnd).1
      have h0 : xs.countP (fun y => decide (y = a)) = 0 := by
        rw [List.countP_eq_zero]
        intro b hb
        simp only [decide_eq_true_eq]
        exact fun he => hnx (he ▸ hb)
      simp [h0]
    · have h1 := ih (List.Nodup.of_cons hnd) hmem
      have hxa : x ≠ a := fun he => (List.nodup_cons.1 hnd).1 (he ▸ hmem)
      simp [h1, hxa]

theorem stepMs_inj (i j : ℕ) (h : stepMs i = stepMs j) : i = j := by
  simp only [stepMs, TIME_STEP_SEC, MS_PER_SEC] at h
  push_cast at h
  omega

theorem traj_count_one (m : List SatMeta)
    (hnd : (m.map (fun s => s.node_id)).Nodup)
    (k : ℕ) (hk : k < 600) (s : SatMeta) (hs : s ∈ m) :
    (trajRows m).countP
      (fun r => decide (timeOf r = stepMs k) && decide (nodeOf r = s.node_id)) = 1 := by
  rw [trajRows, show TOTAL_STEPS = 600 from rfl]
  rw [countP_flatMap_single _ _ (List.range 600) (List.nodup_range 600) k
    (List.mem_range.2 hk) ?_]
  · have hcg : (m.map (mkTraceRow k)).countP
        (fun r => decide (timeOf r = stepMs k) && decide (nodeOf r = s.node_id)) =
        (m.map (mkTraceRow k)).countP (fun r => decide (nodeOf r = s.node_id)) := by
      refine List.countP_congr (fun r hr => ?_)
      rcases List.mem_map.1 hr with ⟨u, _, rfl⟩
      simp [mkTraceRow, timeOf]
    rw [hcg, List.countP_map]
    have : ((fun r => decide (nodeOf r = s.node_id)) ∘ mkTraceRow k) =
        (fun u : SatMeta => decide (u.node_id = s.node_id)) := rfl
    rw [this, show (fun u : SatMeta => decide (u.node_id = s.node_id)) =
      ((fun x => decide (x = s.node_id)) ∘ fun u : SatMeta => u.node_id) from rfl,
      ← List.countP_map]
    exact countP_eq_one_of_nodup _ _ hnd (List.mem_map_of_mem _ hs)
  · intro u _ hut
    rw [List.countP_eq_zero]
    intro r hr
    rcases List.mem_map.1 hr with ⟨v, _, rfl⟩
    have ht : timeOf (mkTraceRow u v) = stepMs u := rfl
    simp only [ht, Bool.and_eq_true, decide_eq_true_eq, not_and]
    intro he
    exact absurd (stepMs_inj u k he) hut

theorem traj_chain (m : List SatMeta) (hm : m ≠ [])
    (hpw : (m.map (fun s => s.node_id)).Pairwise pyStrLt) :
    List.Chain' rowLex (trajRows m) := by
  rw [trajRows, show TOTAL_STEPS = 600 from rfl]
  refine chain'_flatMap _ rowLex _ ?_ ?_ ?_
  · intro k _
    rw [List.chain'_map]
    have hch : List.Chain' pyStrLt (m.map (fun s => s.node_id)) := hpw.chain'
    rw [List.chain'_map] at hch
    refine hch.imp ?_
    intro a b hab
    exact Or.inr ⟨rfl, hab⟩
  · intro k _ he
    exact hm (List.map_eq_nil_iff.1 he)
  · refine List.Pairwise.chain' ?_
    refine (List.pairwise_lt_range 600).imp ?_
    intro i j hij x hx y hy
    rcases List.mem_map.1 hx with ⟨a, _, rfl⟩
    rcases List.mem_map.1 hy with ⟨b, _, rfl⟩
    exact Or.inl (stepMs_strictMono i j hij)

/-! ### Claim theorems C3 to C7 -/

/-- C3: a candidate is retained exactly when its elevation exceeds the minimum
threshold or its slant range is below the maximum threshold (inclusive or);
the selector returns exactly min(N, qualifying) nodes in non-decreasing slant
range order; ties keep catalog iteration order (the selected rows with a given
range are a prefix of the qualifying catalog rows with that range, in catalog
order); returning fewer than N is not an error. -/
theorem C3_selector (catalog : List Candidate) :
    (∀ cd, cd ∈ visibleSats catalog ↔
      cd ∈ catalog ∧ (MIN_ALT_DEG < cd.alt0 ∨ cd.dist0 < MAX_DIST_KM)) ∧
    (selectedSats catalog).length = min MAX_SAT_COUNT (catalog.countP qualB) ∧
    List.Sorted (fun a b => a.dist0 ≤ b.dist0) (selectedSats catalog) ∧
    ∀ d : ℚ, ((selectedSats catalog).filter (fun cd => decide (cd.dist0 = d))) <+:
      (catalog.filter (fun cd => qualB cd && decide (cd.dist0 = d))) := by
  refine ⟨?_, selectedSats_length catalog, ?_, ?_⟩
  · intro cd
    rw [visibleSats, List.mem_filter, qualB]
    simp [Bool.or_eq_true, decide_eq_true_eq]
  · rw [selectedSats, sortedSats]
    have hs := sortKey_sorted (fun c : Candidate => c.dist0) (visibleSats catalog)
    exact List.Pairwise.sublist (List.take_sublist _ _) hs
  · intro d
    have hstab : ((sortedSats catalog).filter (fun cd => decide (cd.dist0 = d))) =
        catalog.filter (fun cd => qualB cd && decide (cd.dist0 = d)) := by
      rw [sortedSats, filter_sortKey (fun c => c.dist0) d (visibleSats catalog),
        visibleSats, List.filter_filter]
      exact List.filter_congr (fun a _ => Bool.and_comm _ _)
    refine ⟨((sortedSats catalog).drop MAX_SAT_COUNT).filter
      (fun cd => decide (cd.dist0 = d)), ?_⟩
    rw [← hstab, selectedSats, ← List.filter_append, List.take_append_drop]

/-- C4: on a nonempty selection, the sampler produces exactly
duration / step timestamps, namely k times the step in ms for k below the step
count; exactly one trace point per selected node at every timestamp; every row
lies on the grid; and rows are ordered by ascending time, then ascending
node identifier in Python string order. -/
theorem C4_sampler (catalog : List Candidate) (hne : satMetadata catalog ≠ []) :
    (sortedUnique ((trajRows (satMetadata catalog)).map timeOf) =
      (List.range (SIM_DURATION_SEC / TIME_STEP_SEC)).map stepMs) ∧
    (∀ r ∈ trajRows (satMetadata catalog), ∃ k, k < 600 ∧ timeOf r = stepMs k) ∧
    (∀ k, k < 600 → ∀ s ∈ satMetadata catalog,
      (trajRows (satMetadata catalog)).countP
        (fun r => decide (timeOf r = stepMs k) && decide (nodeOf r = s.node_id)) = 1) ∧
    List.Chain' rowLex (trajRows (satMetadata catalog)) := by
  refine ⟨?_, ?_, ?_, ?_⟩
  · rw [trajRows, show TOTAL_STEPS = 600 from rfl,
      show SIM_DURATION_SEC / TIME_STEP_SEC = 600 from rfl, List.range_eq_range']
    refine sortedUnique_map_flatMap timeOf stepMs _ _ (stepKeys_sorted 0 600) ?_ ?_
    · intro k _ r hr
      rcases List.mem_map.1 hr with ⟨s, _, rfl⟩
      rfl
    · intro k _ he
      exact hne (List.map_eq_nil_iff.1 he)
  · intro r hr
    rw [trajRows, show TOTAL_STEPS = 600 from rfl] at hr
    rcases List.mem_flatMap.1 hr with ⟨k, hk, hrk⟩
    rcases List.mem_map.1 hrk with ⟨s, _, rfl⟩
    exact ⟨k, List.mem_range.1 hk, rfl⟩
  · intro k hk s hs
    exact traj_count_one _ (satMetadata_ids_nodup catalog) k hk s hs
  · exact traj_chain _ hne (satMetadata_ids_pairwise catalog)

/-- Witness for C4 at the one candidate catalog. -/
theorem C4_sampler_witness :
    satMetadata catalogCE ≠ [] ∧
    List.Chain' rowLex (trajRows (satMetadata catalogCE)) := by
  have hne : satMetadata catalogCE ≠ [] := by
    intro he
    have hl := satMetadata_length catalogCE
    rw [he, selectedSats_length] at hl
    exact absurd hl (by decide)
  exact ⟨hne, (C4_sampler catalogCE hne).2.2.2⟩

/-- C5: the writer membership test picks exactly the rows of the closed window
from start_ms to end_ms, the same set as the half open window of one chunk
duration; windows of consecutive chunks are contiguous (end of chunk c is the
start of chunk c+1 minus one); and every sampled timestamp lies in exactly one
of the TOTAL_CHUNKS windows. -/
theorem C5_chunk_windows (c : ℕ) (t : ℤ) (k : ℕ) (hc : c < TOTAL_CHUNKS)
    (hk : k < TOTAL_STEPS) :
    (writerMem c t = true ↔ chunkStartMs c ≤ t ∧ t ≤ chunkEndMs c) ∧
    (writerMem c t = true ↔ chunkStartMs c ≤ t ∧
      t < chunkStartMs c + ((CHUNK_DURATION_SEC * MS_PER_SEC : ℕ) : ℤ)) ∧
    chunkEndMs c = chunkStartMs (c + 1) - 1 ∧
    ∃! c' : ℕ, c' < TOTAL_CHUNKS ∧ writerMem c' (stepMs k) = true := by
  have hmem : ∀ c' : ℕ, ∀ u : ℤ, writerMem c' u = true ↔
      chunkStartMs c' ≤ u ∧ u < chunkEndMs c' + 1 := by
    intro c' u
    rw [writerMem, Bool.and_eq_true, decide_eq_true_eq, decide_eq_true_eq]
  refine ⟨?_, ?_, ?_, ?_⟩
  · rw [hmem]
    omega
  · rw [hmem]
    simp only [chunkStartMs, chunkEndMs, CHUNK_DURATION_SEC, MS_PER_SEC]
    push_cast
    omega
  · simp only [chunkStartMs, chunkEndMs, CHUNK_DURATION_SEC, MS_PER_SEC]
    push_cast
    omega
  · rw [show TOTAL_CHUNKS = 10 from rfl] at hc ⊢
    rw [show TOTAL_STEPS = 600 from rfl] at hk
    refine ⟨k / 60, ⟨by omega, ?_⟩, ?_⟩
    · rw [hmem]
      simp only [chunkStartMs, chunkEndMs, stepMs, CHUNK_DURATION_SEC, MS_PER_SEC,
        TIME_STEP_SEC]
      push_cast
      omega
    · intro c'' hc''
      obtain ⟨hlt, hw⟩ := hc''
      rw [hmem] at hw
      simp only [chunkStartMs, chunkEndMs, stepMs, CHUNK_DURATION_SEC, MS_PER_SEC,
        TIME_STEP_SEC] at hw
      push_cast at hw
      omega

/-- Witness for C5 at chunk 2, time 130000 ms, step 77. -/
theorem C5_chunk_windows_witness :
    (2 : ℕ) < TOTAL_CHUNKS ∧ (77 : ℕ) < TOTAL_STEPS ∧
    (writerMem 2 130000 = true ↔ chunkStartMs 2 ≤ 130000 ∧ (130000 : ℤ) ≤ chunkEndMs 2) :=
  ⟨by decide, by decide, (C5_chunk_windows 2 130000 77 (by decide) (by decide)).1⟩

/-- C6: the manifest entries are produced by the same index arithmetic as the
chunk filenames; the two lists agree element by element and in order, for
every sliced frame (the manifest is never derived from the written files). -/
theorem C6_manifest_names (f : S1Frame) :
    (∀ c, manifestFileName c = writerFileName c) ∧
    buildManifest.trace_files = (splitChunks f).map Prod.fst := by
  refine ⟨fileNames_eq, ?_⟩
  show (List.range TOTAL_CHUNKS).map manifestFileName = _
  rw [splitChunks, List.map_map]
  exact List.map_congr_left (fun c _ => fileNames_eq c)

/-- C7: the pipeline writes no chunk and no manifest exactly when one of the
four structural checks of validate_trajectory_data fails on the generated
table (missing required column, timestamp set different from the expected
arithmetic grid, a radius above the bound, or a null field); when all four
pass, the outputs are produced. -/
theorem C7_validation_gate (sqrtFn : ℚ → ℚ) (f : S1Frame) :
    runPipelineFrom sqrtFn f = none ↔
      (genMissingCols (addRadius sqrtFn f) ≠ [] ∨
       sortedUnique (frameTimes (addRadius sqrtFn f)) ≠ expectedSteps ∨
       genBadRadius (addRadius sqrtFn f) ≠ [] ∨
       hasNulls (addRadius sqrtFn f) = true) := by
  have hnone : runPipelineFrom sqrtFn f = none ↔ genChecksPass sqrtFn f = false := by
    rw [runPipelineFrom]
    cases h : genChecksPass sqrtFn f <;> simp [h]
  rw [hnone]
  constructor
  · intro hfalse
    by_contra hcon
    push_neg at hcon
    obtain ⟨h1, h2, h3, h4⟩ := hcon
    have h4' : hasNulls (addRadius sqrtFn f) = false := by
      cases hx : hasNulls (addRadius sqrtFn f)
      · rfl
      · exact absurd hx h4
    rw [genChecksPass, h1, h2, h3, h4'] at hfalse
    simp at hfalse
  · intro hdis
    rw [genChecksPass]
    rcases hdis with h | h | h | h <;> simp [h]

/-! ### Claims C1 and C2 -/

/-- C1 counterexample: a pipeline run over a catalog with one qualifying
candidate on which every generation invariant of validate_trajectory_data
holds, while validate_s1_csv on the first written chunk returns the
row-count-per-timestamp FAIL rather than PASS. -/
theorem C1_counterexample :
    genChecksPass sqrtCE (trajFrame (satMetadata catalogCE)) = true ∧
    isGroupFailS1 (validateS1 (writerFileName 0)
      (.ok (chunkFrame 0 (genFrame sqrtCE (satMetadata catalogCE))))) = true ∧
    validateS1 (writerFileName 0)
      (.ok (chunkFrame 0 (genFrame sqrtCE (satMetadata catalogCE)))) ≠ .pass := by
  have hlen : (satMetadata catalogCE).length = 1 := by
    rw [satMetadata_length, selectedSats_length]
    decide
  have hm : satMetadata catalogCE ≠ [] := by
    intro he
    rw [he] at hlen
    exact absurd hlen (by decide)
  have hrad : ∀ s ∈ satMetadata catalogCE, ∀ k, k < 600 →
      sampleRadius sqrtCE s.sat k ≤ 7000 := by
    intro s _ k _
    norm_num [sampleRadius, sqrtCE]
  have hfail := chunk_group_fail_of_ne50 sqrtCE (satMetadata catalogCE) 0 (by norm_num)
    hm (by rw [hlen]; decide)
  refine ⟨genChecksPass_of sqrtCE (satMetadata catalogCE) hm hrad, hfail, ?_⟩
  intro he
  rw [he] at hfail
  exact absurd hfail (by decide)

/-- C1 (amended): when at least MAX_SAT_COUNT candidates qualify and every
sampled altitude and stored radius lies inside the validator bands, each
written chunk validates PASS, contains every required column including
radius_km, satisfies the 50 rows per timestamp rule, and deleting any single
row from a chunk makes validate_s1_csv FAIL with the row-count-per-timestamp
reason. -/
theorem C1_roundtrip_amended (sqrtFn : ℚ → ℚ) (catalog : List Candidate)
    (h50 : MAX_SAT_COUNT ≤ catalog.countP qualB)
    (halt' : ∀ s ∈ satMetadata catalog, ∀ k, k < 600 →
      200 ≤ round2 (s.sat.altKm k) ∧ round2 (s.sat.altKm k) ≤ 1200)
    (hrad' : ∀ s ∈ satMetadata catalog, ∀ k, k < 600 →
      6371 ≤ sampleRadius sqrtFn s.sat k ∧ sampleRadius sqrtFn s.sat k ≤ 7000) :
    genChecksPass sqrtFn (trajFrame (satMetadata catalog)) = true ∧
    ∀ c, c < 10 →
      validateS1 (writerFileName c)
        (.ok (chunkFrame c (genFrame sqrtFn (satMetadata catalog)))) = .pass ∧
      (∀ col ∈ S1_REQUIRED_COLS,
        col ∈ (chunkFrame c (genFrame sqrtFn (satMetadata catalog))).cols) ∧
      (∀ g ∈ groupSizes (chunkFrame c (genFrame sqrtFn (satMetadata catalog))),
        g.2 = 50) ∧
      ∀ i, i < (chunkRows c (genFrame sqrtFn (satMetadata catalog))).length →
        isGroupFailS1 (validateS1 (writerFileName c)
          (.ok ⟨(chunkFrame c (genFrame sqrtFn (satMetadata catalog))).cols,
                (chunkRows c (genFrame sqrtFn (satMetadata catalog))).eraseIdx i⟩))
          = true := by
  have hlen : (satMetadata catalog).length = 50 := by
    rw [satMetadata_length, selectedSats_length, min_eq_left h50]
    rfl
  have hm : satMetadata catalog ≠ [] := by
    intro he
    rw [he] at hlen
    exact absurd hlen (by decide)
  refine ⟨genChecksPass_of sqrtFn _ hm (fun s hs k hk => (hrad' s hs k hk).2), ?_⟩
  intro c hc
  refine ⟨chunk_pass sqrtFn _ c hc hlen (satMetadata_ids_nodup catalog) halt' hrad'
    (satMetadata_ips_valid catalog), ?_, ?_, ?_⟩
  · intro col hcol
    rw [show (chunkFrame c (genFrame sqrtFn (satMetadata catalog))).cols =
      S1_GEN_COLS ++ ["radius_km"] from genFrame_cols sqrtFn _]
    exact hcol
  · intro g hg
    rw [chunk_groupSizes sqrtFn _ c hc hm] at hg
    rcases List.mem_map.1 hg with ⟨k, _, rfl⟩
    exact hlen
  · intro i hi
    exact chunk_delete_fail sqrtFn _ c hc hlen i hi

/-- Witness for C1 (amended): fifty qualifying constant candidates with the
constant square root stand in; the hypotheses hold and chunk 0 validates
PASS. -/
theorem C1_roundtrip_amended_witness :
    validateS1 (writerFileName 0)
      (.ok (chunkFrame 0 (genFrame sqrtCE (satMetadata catalogW)))) = .pass := by
  have h := C1_roundtrip_amended sqrtCE catalogW (by decide)
    (by
      intro s hs k _
      rcases List.mem_map.1 (satMetadata_sat_mem catalogW s hs) with ⟨i, _, heq⟩
      rw [← heq]
      show (200 : ℚ) ≤ round2 550 ∧ round2 550 ≤ 1200
      constructor <;> norm_num [round2, rndHE])
    (by
      intro s hs k _
      constructor <;> norm_num [sampleRadius, sqrtCE])
  exact (h.2 0 (by norm_num)).1

/-- C2 counterexample: with one qualifying candidate the run selects one node,
yet the sat_count field of the manifest the pipeline writes is the constant
50, not the selected node count. -/
theorem C2_counterexample :
    (satMetadata catalogCE).length = 1 ∧
    runPipeline sqrtCE catalogCE =
      some (splitChunks (genFrame sqrtCE (satMetadata catalogCE)), buildManifest) ∧
    buildManifest.sat_count = 50 ∧
    buildManifest.sat_count ≠ (satMetadata catalogCE).length := by
  have hlen : (satMetadata catalogCE).length = 1 := by
    rw [satMetadata_length, selectedSats_length]
    decide
  have hm : satMetadata catalogCE ≠ [] := by
    intro he
    rw [he] at hlen
    exact absurd hlen (by decide)
  have hrad : ∀ s ∈ satMetadata catalogCE, ∀ k, k < 600 →
      sampleRadius sqrtCE s.sat k ≤ 7000 := by
    intro s _ k _
    norm_num [sampleRadius, sqrtCE]
  refine ⟨hlen, ?_, rfl, ?_⟩
  · rw [runPipeline, runPipelineFrom,
      if_pos (genChecksPass_of sqrtCE (satMetadata catalogCE) hm hrad)]
    rfl
  · rw [hlen]
    decide

/-- C2 (amended): whenever the pipeline writes its outputs, the manifest
carries the scenario name, the reference epoch string, the total duration and
the ordered chunk filename list matching the written files; its node count
field is the constant MAX_SAT_COUNT, independent of the selected node count. -/
theorem C2_manifest_amended (sqrtFn : ℚ → ℚ) (catalog : List Candidate)
    (cs : List (String × S1Frame)) (man : Manifest)
    (h : runPipeline sqrtFn catalog = some (cs, man)) :
    man.scenario_name = SCENARIO_NAME ∧ man.t0_utc = T0_UTC_STR ∧
    man.sim_duration_sec = SIM_DURATION_SEC ∧ man.sat_count = MAX_SAT_COUNT ∧
    man.trace_files = (List.range TOTAL_CHUNKS).map manifestFileName ∧
    man.trace_files = cs.map Prod.fst := by
  rw [runPipeline, runPipelineFrom] at h
  by_cases hp : genChecksPass sqrtFn (trajFrame (satMetadata catalog)) = true
  · rw [if_pos hp, Option.some.injEq, Prod.mk.injEq] at h
    obtain ⟨hcs, hman⟩ := h
    subst hcs
    subst hman
    refine ⟨rfl, rfl, rfl, rfl, rfl, ?_⟩
    show (List.range TOTAL_CHUNKS).map manifestFileName = _
    rw [splitChunks, List.map_map]
    exact List.map_congr_left (fun c _ => fileNames_eq c)
  · rw [if_neg hp] at h
    exact absurd h (by simp)

/-- Witness for C2 (amended): applied to the concrete one candidate run. -/
theorem C2_manifest_amended_witness :
    buildManifest.sat_count = MAX_SAT_COUNT ∧
    buildManifest.trace_files =
      (splitChunks (genFrame sqrtCE (satMetadata catalogCE))).map Prod.fst := by
  have hlen : (satMetadata catalogCE).length = 1 := by
    rw [satMetadata_length, selectedSats_length]
    decide
  have hm : satMetadata catalogCE ≠ [] := by
    intro he
    rw [he] at hlen
    exact absurd hlen (by decide)
  have hrad : ∀ s ∈ satMetadata catalogCE, ∀ k, k < 600 →
      sampleRadius sqrtCE s.sat k ≤ 7000 := by
    intro s _ k _
    norm_num [sampleRadius, sqrtCE]
  have hrun : runPipeline sqrtCE catalogCE =
      some (splitChunks (genFrame sqrtCE (satMetadata catalogCE)), buildManifest) := by
    rw [runPipeline, runPipelineFrom,
      if_pos (genChecksPass_of sqrtCE (satMetadata catalogCE) hm hrad)]
    rfl
  have hres := C2_manifest_amended sqrtCE catalogCE _ _ hrun
  exact ⟨hres.2.2.2.1, hres.2.2.2.2.2⟩

/-! ### The S2 validator: heading normalization and verdict structure -/

theorem pymod360_eq (x : ℚ) : pymod360 x = 360 * Int.fract (x / 360) := by
  rw [pymod360, Int.fract]
  ring

theorem pymod360_nonneg (x : ℚ) : 0 ≤ pymod360 x := by
  rw [pymod360_eq]
  exact mul_nonneg (by norm_num) (Int.fract_nonneg _)

theorem pymod360_lt (x : ℚ) : pymod360 x < 360 := by
  rw [pymod360_eq]
  have h := Int.fract_lt_one (x / 360)
  nlinarith

theorem s2BadUavHead_norm (f : S2Frame) : s2BadUavHead (s2Norm f) = [] := by
  rw [s2Norm]
  split
  · rw [s2BadUavHead, List.filter_eq_nil_iff]
    intro r hr
    rcases List.mem_map.1 hr with ⟨r0, _, rfl⟩
    rw [normRow]
    split
    · intro hcon
      rw [Bool.and_eq_true] at hcon
      obtain ⟨_, hbad⟩ := hcon
      rw [Bool.or_eq_true, decide_eq_true_eq, decide_eq_true_eq] at hbad
      have hv : ({ r0 with heading_deg := some (pymod360 (r0.heading_deg.getD 0)) } :
          S2Row).heading_deg.getD 0 = pymod360 (r0.heading_deg.getD 0) := rfl
      rw [hv] at hbad
      rcases hbad with h | h
      · exact absurd h (not_lt.2 (pymod360_nonneg _))
      · exact absurd h (not_lt.2 (le_of_lt (pymod360_lt _)))
    · rename_i h0
      intro hcon
      rw [Bool.and_eq_true] at hcon
      exact absurd hcon.1 h0
  · rename_i h0
    rw [s2BadUavHead, List.filter_eq_nil_iff]
    intro r hr hcon
    rw [Bool.and_eq_true] at hcon
    rw [uavAny] at h0
    exact h0 (List.any_eq_true.2 ⟨r, hr, hcon.1⟩)

theorem validateS2_ok_shape (geo : Geo) (name : String) (df : S2Frame) :
    validateS2 geo name (.ok df) = .pass ∨
    ∃ r, validateS2 geo name (.ok df) = .fail r ∧ s2RowSampleLen r ≤ 3 ∧
      ∀ rows, r ≠ S2Reason.uavHeading rows := by
  simp only [validateS2]
  by_cases h1 : (!isTraceName "uav_trace_" name) = true
  · rw [if_pos h1]
    exact Or.inr ⟨_, rfl, by simp [s2RowSampleLen], by simp⟩
  rw [if_neg h1]
  by_cases h2 : s2MissingCols df ≠ []
  · rw [if_pos h2]
    exact Or.inr ⟨_, rfl, by simp [s2RowSampleLen], by simp⟩
  rw [if_neg h2]
  by_cases h3 : hasNulls2 df = true
  · rw [if_pos h3]
    exact Or.inr ⟨_, rfl, by simp [s2RowSampleLen], by simp⟩
  rw [if_neg h3]
  by_cases h4 : s2AbnormalGroups df ≠ []
  · rw [if_pos h4]
    exact Or.inr ⟨_, rfl, by simp [s2RowSampleLen], by simp⟩
  rw [if_neg h4]
  by_cases h5 : s2DupPairs df ≠ []
  · rw [if_pos h5]
    exact Or.inr ⟨_, rfl, by
      simp only [s2RowSampleLen]
      exact List.length_take_le _ _, by simp⟩
  rw [if_neg h5]
  by_cases h6 : (sortedUnique (frameTimes2 df)).length ≠ 600
  · rw [if_pos h6]
    exact Or.inr ⟨_, rfl, by simp [s2RowSampleLen], by simp⟩
  rw [if_neg h6]
  by_cases h7 : s2BadSteps df ≠ []
  · rw [if_pos h7]
    exact Or.inr ⟨_, rfl, by simp [s2RowSampleLen], by simp⟩
  rw [if_neg h7]
  by_cases h8 : df.rows.length ≠ 2400
  · rw [if_pos h8]
    exact Or.inr ⟨_, rfl, by simp [s2RowSampleLen], by simp⟩
  rw [if_neg h8]
  by_cases h9 : s2BadMag df ≠ []
  · rw [if_pos h9]
    exact Or.inr ⟨_, rfl, by
      simp only [s2RowSampleLen]
      exact List.length_take_le _ _, by simp⟩
  rw [if_neg h9]
  by_cases h10 : s2BadPos geo df ≠ []
  · rw [if_pos h10]
    exact Or.inr ⟨_, rfl, by
      simp only [s2RowSampleLen]
      exact List.length_take_le _ _, by simp⟩
  rw [if_neg h10]
  by_cases h11 : s2BadUavAlt geo df ≠ []
  · rw [if_pos h11]
    exact Or.inr ⟨_, rfl, by
      simp only [s2RowSampleLen]
      exact List.length_take_le _ _, by simp⟩
  rw [if_neg h11]
  by_cases h12 : s2BadGsAlt geo df ≠ []
  · rw [if_pos h12]
    exact Or.inr ⟨_, rfl, by
      simp only [s2RowSampleLen]
      exact List.length_take_le _ _, by simp⟩
  rw [if_neg h12]
  by_cases h13 : 1 < (gsAlts geo df).length
  · rw [if_pos h13]
    exact Or.inr ⟨_, rfl, by simp [s2RowSampleLen], by simp⟩
  rw [if_neg h13]
  by_cases h14 : (!s2GsHeadOk df) = true
  · rw [if_pos h14]
    exact Or.inr ⟨_, rfl, by simp [s2RowSampleLen], by simp⟩
  rw [if_neg h14]
  by_cases h15 : s2BadUavHead (s2Norm df) ≠ []
  · exact absurd (s2BadUavHead_norm df) h15
  rw [if_neg h15]
  by_cases h16 : (!s2GsBattOk (s2Norm df)) = true
  · rw [if_pos h16]
    exact Or.inr ⟨_, rfl, by simp [s2RowSampleLen], by simp⟩
  rw [if_neg h16]
  cases hb : (uavIds (s2Norm df)).find? (fun uid => badBattery (s2Norm df) uid) with
  | some uid =>
    exact Or.inr ⟨_, rfl, by simp [s2RowSampleLen], by simp⟩
  | none =>
    cases hr : (uavIds (s2Norm df)).find? (fun uid => badMove (s2Norm df) uid) with
    | some uid =>
      exact Or.inr ⟨_, rfl, by simp [s2RowSampleLen], by simp⟩
    | none =>
      by_cases h17 : s2BadIps (s2Norm df) ≠ []
      · rw [if_pos h17]
        exact Or.inr ⟨_, rfl, by
          simp only [s2RowSampleLen]
          exact List.length_take_le _ _, by simp⟩
      rw [if_neg h17]
      exact Or.inl rfl

/-- C10 (implicit): aerial headings are normalized in place modulo 360 before
the range check, so the check that a UAV heading lies outside the closed
interval from 0 to 360 can never trigger: validate_s2_csv never returns the
UAV-heading-abnormal FAIL, on any input. -/
theorem C10_heading_unreachable (geo : Geo) (fileName : String)
    (input : Except String S2Frame) :
    isUavHeadingFailS2 (validateS2 geo fileName input) = false := by
  cases input with
  | error e => rfl
  | ok df =>
    rcases validateS2_ok_shape geo fileName df with hs | ⟨r, hs, _, hnr⟩
    · rw [hs]
      rfl
    · rw [hs]
      cases r
      all_goals try rfl
      exact absurd rfl (hnr _)

/-- Timestamp of block k of the concrete S2 file. -/
def keyW (k : ℕ) : ℤ := ((k * 100 : ℕ) : ℤ)

theorem blkW_mem (k : ℕ) (r : S2Row) (hr : r ∈ blkW k) :
    r = gsRowW k ∨ r = uavRowW 1 k ∨ r = uavRowW 2 k ∨ r = uavRowW 3 k := by
  simp only [blkW, List.mem_cons, List.not_mem_nil, or_false] at hr
  exact hr

theorem rows_s2FrameW_mem (r : S2Row) (hr : r ∈ s2FrameW.rows) :
    ∃ k, k < 600 ∧ (r = gsRowW k ∨ r = uavRowW 1 k ∨ r = uavRowW 2 k ∨ r = uavRowW 3 k) := by
  simp only [s2FrameW] at hr
  rcases List.mem_flatMap.1 hr with ⟨k, hk, hrk⟩
  exact ⟨k, List.mem_range.1 hk, blkW_mem k r hrk⟩

theorem keyW_sorted : List.Sorted (· < ·) ((List.range 600).map keyW) := by
  refine List.Pairwise.map keyW (fun a b hab => ?_) (List.pairwise_lt_range 600)
  simp only [keyW]
  exact_mod_cast (show a * 100 < b * 100 by omega)

theorem keyW_nodup : (((List.range 600).map keyW)).Nodup :=
  List.Pairwise.imp (fun h => ne_of_lt h) keyW_sorted

theorem blkW_time (k : ℕ) (r : S2Row) (hr : r ∈ blkW k) : timeOf2 r = keyW k := by
  rcases blkW_mem k r hr with rfl | rfl | rfl | rfl <;> rfl

theorem frameTimes2W : sortedUnique (frameTimes2 s2FrameW) = (List.range 600).map keyW := by
  have h0 : frameTimes2 s2FrameW = ((List.range 600).flatMap blkW).map timeOf2 := rfl
  rw [h0]
  exact sortedUnique_map_flatMap timeOf2 keyW _ blkW keyW_sorted
    (fun t _ r hr => blkW_time t r hr) (fun t _ => by simp [blkW])

theorem frameTimes2W_len : (sortedUnique (frameTimes2 s2FrameW)).length = 600 := by
  rw [frameTimes2W, List.length_map, List.length_range]

theorem hasNulls2W : hasNulls2 s2FrameW = false := by
  rw [hasNulls2, List.any_eq_false]
  intro r hr
  rcases rows_s2FrameW_mem r hr with ⟨k, _, hc⟩
  have h0 : row2NullCols r = [] := by rcases hc with rfl | rfl | rfl | rfl <;> rfl
  simp [h0]

theorem s2AbnormalGroupsW : s2AbnormalGroups s2FrameW = [] := by
  rw [s2AbnormalGroups, List.filter_eq_nil_iff]
  intro p hp
  rw [groupSizes2, frameTimes2W] at hp
  rcases List.mem_map.1 hp with ⟨t, ht, hteq⟩
  rcases List.mem_map.1 ht with ⟨u, hu, rfl⟩
  have hrows : s2FrameW.rows = (List.range 600).flatMap blkW := rfl
  have hc := countP_flatMap_blocks timeOf2 keyW blkW (List.range 600) keyW_nodup
    (fun t _ r hr => blkW_time t r hr) u hu
  subst hteq
  simp only [hrows, decide_eq_true_eq, ne_eq, not_not]
  rw [hc]
  rfl

theorem s2DupPairsW : s2DupPairs s2FrameW = [] := by
  rw [s2DupPairs]
  refine dups_eq_nil _ ?_
  have hrows : s2FrameW.rows = (List.range 600).flatMap blkW := rfl
  rw [hrows]
  refine pairsNodup_flatMap timeOf2 nodeOf2 keyW (List.range 600) blkW keyW_nodup
    (fun t _ r hr => blkW_time t r hr) (fun t _ => ?_)
  have h0 : (blkW t).map nodeOf2 = ["GS_01", "UAV_01", "UAV_02", "UAV_03"] := rfl
  rw [h0]
  decide

theorem s2BadStepsW : s2BadSteps s2FrameW = [] := by
  rw [s2BadSteps, frameTimes2W, List.range_eq_range',
    diffs_map_range' 100 keyW (fun k => by simp only [keyW]; push_cast; ring) 600 0]
  have h2 : (List.replicate (600 - 1) (100 : ℤ)).filter (fun d => decide (d ≠ 100)) = [] := by
    rw [List.filter_eq_nil_iff]
    intro d hd
    rw [List.eq_of_mem_replicate hd]
    simp
  rw [h2]
  rfl

theorem s2FrameW_len : s2FrameW.rows.length = 2400 := by
  have hrows : s2FrameW.rows = (List.range 600).flatMap blkW := rfl
  rw [hrows, List.length_flatMap]
  have h1 : ∀ b ∈ (List.range 600).map (List.length ∘ blkW), b = 4 := by
    intro b hb
    rcases List.mem_map.1 hb with ⟨k, _, rfl⟩
    rfl
  rw [List.eq_replicate_of_mem h1, List.sum_replicate, List.length_map,
    List.length_range, smul_eq_mul]

theorem s2BadMagW : s2BadMag s2FrameW = [] := by
  rw [s2BadMag, List.filter_eq_nil_iff]
  intro r hr
  rcases rows_s2FrameW_mem r hr with ⟨k, _, hc⟩
  have hm : magSq r = (6500000 : ℚ) ^ 2 := by
    rcases hc with rfl | rfl | rfl | rfl <;> norm_num [magSq, gsRowW, uavRowW]
  simp only [hm, Bool.or_eq_true, decide_eq_true_eq]
  norm_num

theorem s2BadPosW : s2BadPos geoW s2FrameW = [] := by
  rw [s2BadPos, List.filter_eq_nil_iff]
  intro r _
  have h1 : latOf geoW r = 30 := rfl
  have h2 : lonOf geoW r = 104 := rfl
  simp only [h1, h2]
  decide

theorem s2BadUavAltW : s2BadUavAlt geoW s2FrameW = [] := by
  rw [s2BadUavAlt, List.filter_eq_nil_iff]
  intro r _
  have h1 : altOf geoW r = 600 := rfl
  have h2 := decide_eq_false (by norm_num : ¬ ((600 : ℚ) < 500))
  have h3 := decide_eq_false (by norm_num : ¬ ((5000 : ℚ) < 600))
  simp [h1, h2, h3]

theorem s2BadGsAltW : s2BadGsAlt geoW s2FrameW = [] := by
  rw [s2BadGsAlt, List.filter_eq_nil_iff]
  intro r _
  have h1 : altOf geoW r = 600 := rfl
  have h2 := decide_eq_false (by norm_num : ¬ ((1000 : ℚ) < 600))
  simp [h1, h2]

theorem gsAltsW_len : (gsAlts geoW s2FrameW).length ≤ 1 := by
  rw [gsAlts]
  have h1 : (gsRows s2FrameW).map (altOf geoW) = (gsRows s2FrameW).map (fun _ => (600 : ℚ)) :=
    List.map_congr_left (fun a _ => rfl)
  rw [h1]
  cases hg : gsRows s2FrameW with
  | nil => simp [uniqFirst]
  | cons x xs =>
    rw [uniqFirst_map_const (x :: xs) 600 (by simp)]
    simp

theorem s2GsHeadOkW : s2GsHeadOk s2FrameW = true := by
  rw [s2GsHeadOk, List.all_eq_true]
  intro r hr
  rw [gsRows] at hr
  have hr' := List.mem_of_mem_filter hr
  have hgs := List.of_mem_filter hr
  rcases rows_s2FrameW_mem r hr' with ⟨k, _, rfl | rfl | rfl | rfl⟩
  · have h0 : (gsRowW k).heading_deg.getD 0 = (-1 : ℚ) := rfl
    simp [h0]
  · exact absurd hgs (by simp [isGs, uavRowW])
  · exact absurd hgs (by simp [isGs, uavRowW])
  · exact absurd hgs (by simp [isGs, uavRowW])

theorem isGs_normRow (r : S2Row) : isGs (normRow r) = isGs r := by
  rw [normRow]
  split
  · rfl
  · rfl

theorem normRow_gs (r : S2Row) (h : isGs r = true) : normRow r = r := by
  rw [isGs, decide_eq_true_eq] at h
  have hneg : ¬ (isUav r = true) := by
    rw [isUav, h]
    decide
  rw [normRow, if_neg hneg]

theorem gsRows_s2Norm (f : S2Frame) : gsRows (s2Norm f) = gsRows f := by
  rw [s2Norm]
  by_cases h : uavAny f = true
  · rw [if_pos h, gsRows, gsRows]
    show (f.rows.map normRow).filter isGs = f.rows.filter isGs
    rw [List.filter_map]
    have h1 : f.rows.filter (isGs ∘ normRow) = f.rows.filter isGs :=
      List.filter_congr (fun r _ => isGs_normRow r)
    rw [h1]
    have h2 : ∀ r ∈ f.rows.filter isGs, normRow r = r := fun r hr =>
      normRow_gs r (List.of_mem_filter hr)
    rw [List.map_congr_left h2, List.map_id']
  · rw [if_neg h]

theorem s2GsBattOkW : s2GsBattOk (s2Norm s2FrameW) = true := by
  rw [s2GsBattOk, gsRows_s2Norm, List.all_eq_true]
  intro r hr
  rw [gsRows] at hr
  have hr' := List.mem_of_mem_filter hr
  have hgs := List.of_mem_filter hr
  rcases rows_s2FrameW_mem r hr' with ⟨k, _, rfl | rfl | rfl | rfl⟩
  · have h0 : (gsRowW k).battery_pct.getD 0 = (-1 : ℚ) := rfl
    simp [h0]
  · exact absurd hgs (by simp [isGs, uavRowW])
  · exact absurd hgs (by simp [isGs, uavRowW])
  · exact absurd hgs (by simp [isGs, uavRowW])

theorem uavRowsOf_s2NormW (r : S2Row) (hr : r ∈ uavRowsOf (s2Norm s2FrameW)) :
    r.battery_pct.getD 0 = 80 := by
  rw [uavRowsOf] at hr
  have hr' := List.mem_of_mem_filter hr
  have huav := List.of_mem_filter hr
  have hany : uavAny s2FrameW = true := by
    rw [uavAny, List.any_eq_true]
    refine ⟨uavRowW 1 0, ?_, by decide⟩
    have hrows : s2FrameW.rows = (List.range 600).flatMap blkW := rfl
    rw [hrows]
    exact List.mem_flatMap.2 ⟨0, by simp, by simp [blkW]⟩
  rw [s2Norm, if_pos hany] at hr'
  have hr2 : r ∈ s2FrameW.rows.map normRow := hr'
  rcases List.mem_map.1 hr2 with ⟨r0, hr0, rfl⟩
  rcases rows_s2FrameW_mem r0 hr0 with ⟨k, _, rfl | rfl | rfl | rfl⟩
  · exact absurd huav (by rw [show isUav (normRow (gsRowW k)) = false from rfl]; simp)
  · rfl
  · rfl
  · rfl

theorem badBatteryW_false (uid : String) : badBattery (s2Norm s2FrameW) uid = false := by
  rw [badBattery, List.any_eq_false]
  intro p hp
  obtain ⟨a, b⟩ := p
  rw [consPairs] at hp
  have hab := List.of_mem_zip hp
  have htrack : ∀ x, x ∈ uavTrack (s2Norm s2FrameW) uid → x ∈ uavRowsOf (s2Norm s2FrameW) := by
    intro x hx
    rw [uavTrack] at hx
    exact List.mem_of_mem_filter ((sortKey_perm timeOf2 _).mem_iff.1 hx)
  have h80a : a.battery_pct.getD 0 = 80 := uavRowsOf_s2NormW a (htrack a hab.1)
  have h80b : b.battery_pct.getD 0 = 80 :=
    uavRowsOf_s2NormW b (htrack b (List.mem_of_mem_tail hab.2))
  intro hcon
  simp only [Bool.and_eq_true, decide_eq_true_eq] at hcon
  have h2 := hcon.2
  rw [h80a, h80b] at h2
  norm_num at h2

theorem findBatteryW :
    (uavIds (s2Norm s2FrameW)).find? (fun uid => badBattery (s2Norm s2FrameW) uid) = none := by
  rw [List.find?_eq_none]
  intro uid _
  simp [badBatteryW_false]

theorem s2PriorW : s2Prior geoW s2NameW s2FrameW = true := by
  have hd13 := decide_eq_true gsAltsW_len
  simp only [s2Prior, hasNulls2W, s2AbnormalGroupsW, s2DupPairsW, frameTimes2W_len,
    s2BadStepsW, s2FrameW_len, s2BadMagW, s2BadPosW, s2BadUavAltW, s2BadGsAltW,
    hd13, s2GsHeadOkW, s2BadUavHead_norm, s2GsBattOkW, findBatteryW]
  decide

/-- C9: for every input frame that reaches the role check of validate_s2_csv
(every earlier check passes, including the battery loop), the verdict is the
role FAIL if and only if some aerial node has two consecutive samples, ordered
by time, whose displacement exceeds the five metre movement threshold while the
later sample's role is not the relay tag RELAY; when no such pair exists the
role check passes. The displacement is compared against the threshold on
squares, as the source never stores the square root. -/
theorem C9_role_check (geo : Geo) (fileName : String) (df : S2Frame)
    (h : s2Prior geo fileName df = true) :
    isRoleFailS2 (validateS2 geo fileName (.ok df)) = true ↔
      ∃ uid ∈ uavIds (s2Norm df), ∃ p ∈ consPairs (nodeTrack (s2Norm df) uid),
        MOVE_THRESHOLD ^ 2 < sqStep p.1 p.2 ∧ p.2.role.getD "" ≠ "RELAY" := by
  simp only [s2Prior, Bool.and_eq_true, decide_eq_true_eq, Bool.not_eq_true'] at h
  obtain ⟨⟨⟨⟨⟨⟨⟨⟨⟨⟨⟨⟨⟨⟨⟨⟨c1, c2⟩, c3⟩, c4⟩, c5⟩, c6⟩, c7⟩, c8⟩, c9⟩, c10⟩, c11⟩,
    c12⟩, c13⟩, c14⟩, c15⟩, c16⟩, c17⟩ := h
  have n1 : ¬ ((!isTraceName "uav_trace_" fileName) = true) := by simp [c1]
  have n2 : ¬ (s2MissingCols df ≠ []) := not_not_intro c2
  have n3 : ¬ (hasNulls2 df = true) := by simp [c3]
  have n4 : ¬ (s2AbnormalGroups df ≠ []) := not_not_intro c4
  have n5 : ¬ (s2DupPairs df ≠ []) := not_not_intro c5
  have n6 : ¬ ((sortedUnique (frameTimes2 df)).length ≠ 600) := not_not_intro c6
  have n7 : ¬ (s2BadSteps df ≠ []) := not_not_intro c7
  have n8 : ¬ (df.rows.length ≠ 2400) := not_not_intro c8
  have n9 : ¬ (s2BadMag df ≠ []) := not_not_intro c9
  have n10 : ¬ (s2BadPos geo df ≠ []) := not_not_intro c10
  have n11 : ¬ (s2BadUavAlt geo df ≠ []) := not_not_intro c11
  have n12 : ¬ (s2BadGsAlt geo df ≠ []) := not_not_intro c12
  have n13 : ¬ (1 < (gsAlts geo df).length) := Nat.not_lt.mpr c13
  have n14 : ¬ ((!s2GsHeadOk df) = true) := by simp [c14]
  have n15 : ¬ (s2BadUavHead (s2Norm df) ≠ []) := not_not_intro c15
  have n16 : ¬ ((!s2GsBattOk (s2Norm df)) = true) := by simp [c16]
  simp only [validateS2]
  rw [if_neg n1, if_neg n2, if_neg n3, if_neg n4, if_neg n5, if_neg n6, if_neg n7,
    if_neg n8, if_neg n9, if_neg n10, if_neg n11, if_neg n12, if_neg n13, if_neg n14,
    if_neg n15, if_neg n16, c17]
  cases hr : (uavIds (s2Norm df)).find? (fun uid => badMove (s2Norm df) uid) with
  | some uid =>
    have hmem := List.mem_of_find?_eq_some hr
    have hbad := List.find?_some hr
    constructor
    · intro _
      simp only [badMove, List.any_eq_true, Bool.and_eq_true, decide_eq_true_eq] at hbad
      obtain ⟨p, hp, hpp⟩ := hbad
      exact ⟨uid, hmem, p, hp, hpp.1, hpp.2⟩
    · intro _
      rfl
  | none =>
    have hforall := List.find?_eq_none.mp hr
    refine iff_of_false ?_ ?_
    · show ¬ (isRoleFailS2 (if s2BadIps (s2Norm df) ≠ [] then
        S2Verdict.fail (S2Reason.badIp ((uniqFirst (s2BadIps (s2Norm df))).take 3))
        else S2Verdict.pass) = true)
      by_cases hip : s2BadIps (s2Norm df) ≠ []
      · rw [if_pos hip]
        simp [isRoleFailS2]
      · rw [if_neg hip]
        simp [isRoleFailS2]
    · rintro ⟨uid, hmem, p, hp, hgt, hrole⟩
      refine hforall uid hmem ?_
      show badMove (s2Norm df) uid = true
      simp only [badMove, List.any_eq_true, Bool.and_eq_true, decide_eq_true_eq]
      exact ⟨p, hp, hgt, hrole⟩

/-- Witness for C9: the concrete uav trace file reaches the role check and, as
every aerial sample carries the RELAY role, the verdict is not the role FAIL. -/
theorem C9_role_check_witness :
    s2Prior geoW s2NameW s2FrameW = true ∧
    (isRoleFailS2 (validateS2 geoW s2NameW (.ok s2FrameW)) = true ↔
      ∃ uid ∈ uavIds (s2Norm s2FrameW), ∃ p ∈ consPairs (nodeTrack (s2Norm s2FrameW) uid),
        MOVE_THRESHOLD ^ 2 < sqStep p.1 p.2 ∧ p.2.role.getD "" ≠ "RELAY") :=
  ⟨s2PriorW, C9_role_check geoW s2NameW s2FrameW s2PriorW⟩

end NetChal
